import Mathlib

/-!
# Verification of the `toread` metadata-enrichment engine

Shallow embedding of the parts of the repository relevant to the claims:
`src/utils.py` (text similarity), `src/cache.py` (metadata cache),
`src/metadata_enricher.py` (source clients and the enrichment orchestrator).

Modelling conventions:
* Python floats are embedded as `ℚ` (all the scores involved are small exact
  decimals, and the comparisons in the source are exact at those values).
* Wall-clock time (`datetime.now()`) is passed explicitly as an integer
  timestamp in seconds; `timedelta(days = d)` becomes `d * 86400`.
* Python dicts used as maps are embedded as association lists with
  lookup/insert/erase helpers; mutation becomes explicit state passing.
* HTTP calls are abstracted as oracle functions supplied as parameters; the
  code around them (validation, ordering, circuit breaking, thresholding) is
  translated from the source.
* `str.lower()` / `\w` / `\s` are modelled on their ASCII fragment, which is
  the fragment exercised by every concrete input in this development.
-/

namespace Toread

/-! ## Generic string helpers

Core `String` functions such as `String.split`, `String.toLower`,
`String.trim`, `String.replace` and `String.splitOn` are defined by
well-founded recursion over byte positions and do not reduce inside the
kernel, so the Python string primitives are re-implemented here over
character lists (fuel-based where the recursion is not structural; the fuel
is always the input length, which bounds the number of scan steps). -/

/-- Python `str.lower()` (ASCII fragment). -/
def strLower (s : String) : String :=
  String.mk (s.toList.map Char.toLower)

/-- Tokenizer for Python `str.split()` with no argument: split on whitespace
runs and drop empty tokens. -/
def wsTokensGo : Nat → List Char → List String
  | 0, _ => []
  | fuel + 1, l =>
    let l1 := l.dropWhile Char.isWhitespace
    match l1 with
    | [] => []
    | _ :: _ =>
      let tok := l1.takeWhile (fun c => !c.isWhitespace)
      String.mk tok :: wsTokensGo fuel (l1.drop tok.length)

/-- Python `str.split()` with no argument. -/
def pySplitWS (s : String) : List String :=
  wsTokensGo s.toList.length s.toList

/-- `subAt sub full` : `sub` occurs at the very start of `full`. -/
def subAt : List Char → List Char → Bool
  | [], _ => true
  | _ :: _, [] => false
  | a :: as, b :: bs => a == b && subAt as bs

/-- `occursIn sub full` : `sub` occurs contiguously somewhere in `full`
(Python `sub in full`). -/
def occursIn (sub : List Char) : List Char → Bool
  | [] => subAt sub []
  | c :: rest => subAt sub (c :: rest) || occursIn sub rest

/-- Python `sub in full` on strings. -/
def strIn (sub full : String) : Bool :=
  occursIn sub.toList full.toList

/-- Python `str.strip()` on a character list. -/
def stripChars (l : List Char) : List Char :=
  ((l.dropWhile Char.isWhitespace).reverse.dropWhile Char.isWhitespace).reverse

/-- Python `str.strip()`. -/
def strStrip (s : String) : String :=
  String.mk (stripChars s.toList)

/-- Python `s.replace(pat, rep)` (all non-overlapping occurrences, scanning
left to right; `pat` is never empty at the call sites below). -/
def replaceGo (pat rep : List Char) : Nat → List Char → List Char
  | 0, l => l
  | _ + 1, [] => []
  | fuel + 1, c :: rest =>
    if subAt pat (c :: rest) && pat ≠ [] then
      rep ++ replaceGo pat rep fuel ((c :: rest).drop pat.length)
    else c :: replaceGo pat rep fuel rest

/-- Python `s.replace(pat, rep)`. -/
def strReplace (s pat rep : String) : String :=
  String.mk (replaceGo pat.toList rep.toList s.toList.length s.toList)

/-- Python `s.split(sep)` with a non-empty separator. -/
def splitOnGo (sep : List Char) : Nat → List Char → List Char → List String
  | 0, acc, rest => [String.mk (acc ++ rest)]
  | _ + 1, acc, [] => [String.mk acc]
  | fuel + 1, acc, c :: rest =>
    if subAt sep (c :: rest) && sep ≠ [] then
      String.mk acc :: splitOnGo sep fuel [] ((c :: rest).drop sep.length)
    else splitOnGo sep fuel (acc ++ [c]) rest

/-- Python `s.split(sep)` (non-empty `sep`). -/
def strSplitOn (s sep : String) : List String :=
  if sep = "" then [s]
  else splitOnGo sep.toList (s.toList.length + 1) [] s.toList

/-- Python `sep.join(l)`. -/
def strJoin (sep : String) : List String → String
  | [] => ""
  | [x] => x
  | x :: xs => x ++ sep ++ strJoin sep xs

/-- Python `min(a, b)` on rationals (`Min.min` on `ℚ` goes through lattice
structure that does not reduce in the kernel; this form does, and equals
`min` — see `pyMin_eq`). -/
def pyMin (a b : ℚ) : ℚ := if a ≤ b then a else b

/-- Python `max(a, b)` on rationals (see `pyMin`). -/
def pyMax (a b : ℚ) : ℚ := if a ≤ b then b else a

theorem pyMin_eq (a b : ℚ) : pyMin a b = min a b := (min_def a b).symm

theorem pyMax_eq (a b : ℚ) : pyMax a b = max a b := (max_def a b).symm

/-! ## `src/utils.py`: similarity -/

/-- `STOP_WORDS` from `src/utils.py`. -/
def STOP_WORDS : Finset String :=
  {"the", "a", "an", "and", "or", "but", "in", "on", "at", "to", "for", "of",
   "with", "by"}

/-- `calculate_text_similarity` from `src/utils.py`: Jaccard word overlap of
lowercased whitespace tokens (optionally stop-word filtered), plus a flat
`0.2` bonus when either lowercased string is a substring of the other,
capped at `1.0`. -/
def calculate_text_similarity (text1 text2 : String) (use_stop_words : Bool) : ℚ :=
  if text1 = "" ∨ text2 = "" then 0
  else
    let words1 := (pySplitWS (strLower text1)).toFinset
    let words2 := (pySplitWS (strLower text2)).toFinset
    if words1 = ∅ ∨ words2 = ∅ then 0
    else
      let words1 := if use_stop_words then words1 \ STOP_WORDS else words1
      let words2 := if use_stop_words then words2 \ STOP_WORDS else words2
      if words1 = ∅ ∨ words2 = ∅ then 0
      else
        let inter := words1 ∩ words2
        let union := words1 ∪ words2
        let jaccard : ℚ :=
          if union ≠ ∅ then (inter.card : ℚ) / (union.card : ℚ) else 0
        let jaccard :=
          if strIn (strLower text1) (strLower text2) ∨
             strIn (strLower text2) (strLower text1)
          then jaccard + 2/10 else jaccard
        pyMin jaccard 1

/-- `calculate_author_similarity` from `src/utils.py`: split the query on
`" and "`, take the maximum pairwise text similarity. -/
def calculate_author_similarity (query_author : String) (paper_authors : List String) : ℚ :=
  if query_author = "" ∨ paper_authors = [] then 0
  else
    let query_authors := (strSplitOn query_author " and ").map strStrip
    query_authors.foldl
      (fun acc q =>
        paper_authors.foldl
          (fun acc2 p => pyMax acc2 (calculate_text_similarity q p true)) acc)
      0

/-- A Crossref author record: presence of the `given` / `family` JSON keys is
modelled with `Option`. -/
structure CrAuthor where
  given : Option String
  family : Option String
  deriving DecidableEq, Repr

/-- `calculate_crossref_author_similarity` from `src/utils.py`. -/
def calculate_crossref_author_similarity (query_author : String)
    (crossref_authors : List CrAuthor) : ℚ :=
  if query_author = "" ∨ crossref_authors = [] then 0
  else
    let crossref_names := crossref_authors.filterMap (fun a =>
      match a.given, a.family with
      | some g, some f => some (g ++ " " ++ f)
      | none, some f => some f
      | _, _ => none)
    if crossref_names = [] then 0
    else calculate_author_similarity query_author crossref_names

/-! ## `src/utils.py`: title cleaning, validation, URL cleaning -/

/-- ASCII letter test (`[a-zA-Z]`). -/
def isAsciiLetter (c : Char) : Bool :=
  ('a' ≤ c && c ≤ 'z') || ('A' ≤ c && c ≤ 'Z')

/-- Python `\w` on its ASCII fragment: letters, digits, underscore. -/
def isWordChar (c : Char) : Bool :=
  c.isAlphanum || c = '_'

/-- Scan to the first `}`: return the characters before it and the remainder
after it, or `none` if there is no `}` (`[^}]*\}` in the regexes below). -/
def splitAtBrace : List Char → Option (List Char × List Char)
  | [] => none
  | '}' :: rest => some ([], rest)
  | c :: rest => (splitAtBrace rest).map (fun p => (c :: p.1, p.2))

/-- `re.sub(r'\\[a-zA-Z]+\{([^}]*)\}', r'\1', ...)`: replace each LaTeX
command-with-braces by its brace content, scanning left to right.  The fuel
argument bounds the number of scan steps (each step consumes at least one
input character, so `length` fuel suffices). -/
def subLatexGo : Nat → List Char → List Char
  | 0, l => l
  | _ + 1, [] => []
  | fuel + 1, c :: rest =>
    if c = '\\' then
      let letters := rest.takeWhile isAsciiLetter
      let after := rest.drop letters.length
      if letters ≠ [] then
        match after with
        | '{' :: rest2 =>
          match splitAtBrace rest2 with
          | some (content, rem) => content ++ subLatexGo fuel rem
          | none => c :: subLatexGo fuel rest
        | _ => c :: subLatexGo fuel rest
      else c :: subLatexGo fuel rest
    else c :: subLatexGo fuel rest

/-- `re.sub(r'\s+', ' ', ...)`: collapse whitespace runs to single spaces. -/
def collapseWSGo : Nat → List Char → List Char
  | 0, l => l
  | _ + 1, [] => []
  | fuel + 1, c :: rest =>
    if c.isWhitespace then ' ' :: collapseWSGo fuel (rest.dropWhile Char.isWhitespace)
    else c :: collapseWSGo fuel rest

/-- `clean_title_for_search` from `src/utils.py`. -/
def clean_title_for_search (title : String) : String :=
  if title = "" then ""
  else
    let l := title.toList
    -- \textbf{text} -> text
    let l := subLatexGo l.length l
    -- remove remaining braces
    let l := l.filter (fun c => c ≠ '{' && c ≠ '}')
    -- non-word chars except whitespace, hyphens, colons, apostrophes -> space
    let l := l.map (fun c =>
      if isWordChar c || c.isWhitespace || c = '-' || c = ':' || c = '\'' then c
      else ' ')
    -- normalize whitespace
    let l := stripChars (collapseWSGo l.length l)
    String.mk l

/-- `is_valid_title` from `src/utils.py`. -/
def is_valid_title (title : String) : Bool :=
  if title = "" then false
  else
    let invalid_titles : List String :=
      ["untitled", "no title", "unknown", "n/a", "na", "none",
       "title", "paper", "article", "document", "pdf"]
    let title_lower := strStrip (strLower title)
    if invalid_titles.contains title_lower then false
    else if title_lower.length < 5 then false
    -- re.match(r'^[\d\W]+$', title): non-empty and every char a digit or non-word
    else if title ≠ "" && title.toList.all (fun c => c.isDigit || !isWordChar c) then false
    else true

/-- `re.sub(r'\\url\{([^}]*)\}', r'\1', ...)` from `clean_url`. -/
def subUrlWrapGo : Nat → List Char → List Char
  | 0, l => l
  | _ + 1, [] => []
  | fuel + 1, l =>
    match l with
    | '\\' :: 'u' :: 'r' :: 'l' :: '{' :: rest =>
      match splitAtBrace rest with
      | some (content, rem) => content ++ subUrlWrapGo fuel rem
      | none => '\\' :: subUrlWrapGo fuel ('u' :: 'r' :: 'l' :: '{' :: rest)
    | c :: rest => c :: subUrlWrapGo fuel rest
    | [] => []

/-- `re.sub(r'\\(?=[a-zA-Z_])', '', ...)` from `clean_url`: drop a backslash
when the next character is a letter or underscore (lookahead: the next
character itself is kept and rescanned). -/
def dropBackslashGo : Nat → List Char → List Char
  | 0, l => l
  | _ + 1, [] => []
  | fuel + 1, '\\' :: rest =>
    match rest with
    | c :: _ =>
      if isAsciiLetter c || c = '_' then dropBackslashGo fuel rest
      else '\\' :: dropBackslashGo fuel rest
    | [] => ['\\']
  | fuel + 1, c :: rest => c :: dropBackslashGo fuel rest

/-- `clean_url` from `src/utils.py`. -/
def clean_url (url : String) : String :=
  if url = "" then ""
  else
    let url := strStrip url
    let url := String.mk (subUrlWrapGo url.toList.length url.toList)
    let url := strReplace url "\\_" "_"
    let url := strReplace url "\\&" "&"
    let url := strReplace url "\\%" "%"
    let url := strReplace url "\\#" "#"
    let url := strReplace url "\\\x7b" "\x7b"
    let url := strReplace url "\\\x7d" "\x7d"
    let url := strReplace url "\\~" "~"
    let url := strReplace url "\\\\" "\\"
    String.mk (dropBackslashGo url.toList.length url.toList)

/-! ## SHA-256 (for `hashlib.sha256(...).hexdigest()[:16]` in `src/cache.py`)

Machine words are `Nat` reduced mod `2^32` explicitly. -/

/-- Truncate to a 32-bit word. -/
def w32 (n : Nat) : Nat := n % 4294967296

/-- 32-bit right rotation. -/
def rotr32 (x n : Nat) : Nat := w32 ((x >>> n) ||| (x <<< (32 - n)))

/-- 32-bit bitwise complement. -/
def not32 (x : Nat) : Nat := x ^^^ 4294967295

def sha256K : List Nat :=
  [1116352408, 1899447441, 3049323471, 3921009573, 961987163,
   1508970993, 2453635748, 2870763221, 3624381080, 310598401,
   607225278, 1426881987, 1925078388, 2162078206, 2614888103,
   3248222580, 3835390401, 4022224774, 264347078, 604807628,
   770255983, 1249150122, 1555081692, 1996064986, 2554220882,
   2821834349, 2952996808, 3210313671, 3336571891, 3584528711,
   113926993, 338241895, 666307205, 773529912, 1294757372,
   1396182291, 1695183700, 1986661051, 2177026350, 2456956037,
   2730485921, 2820302411, 3259730800, 3345764771, 3516065817,
   3600352804, 4094571909, 275423344, 430227734, 506948616,
   659060556, 883997877, 958139571, 1322822218, 1537002063,
   1747873779, 1955562222, 2024104815, 2227730452, 2361852424,
   2428436474, 2756734187, 3204031479, 3329325298]

def sha256H0 : List Nat :=
  [1779033703, 3144134277, 1013904242, 2773480762,
   1359893119, 2600822924, 528734635, 1541459225]

/-- Big-endian byte decomposition of `n` into `k` bytes. -/
def bytesBE : Nat → Nat → List Nat
  | 0, _ => []
  | k + 1, n => bytesBE k (n / 256) ++ [n % 256]

/-- SHA-256 message padding: append `0x80`, zeros, and the 64-bit big-endian
bit length, reaching a multiple of 64 bytes. -/
def sha256Pad (msg : List Nat) : List Nat :=
  let L := msg.length
  let zeros := (119 - L % 64) % 64
  msg ++ [128] ++ List.replicate zeros 0 ++ bytesBE 8 (L * 8)

/-- Split into 64-byte chunks (input length is a multiple of 64). -/
def chunks64Go : Nat → List Nat → List (List Nat)
  | 0, _ => []
  | k + 1, l => l.take 64 :: chunks64Go k (l.drop 64)

def chunks64 (l : List Nat) : List (List Nat) := chunks64Go (l.length / 64) l

/-- Group 4 big-endian bytes into a 32-bit word. -/
def toWords32 : List Nat → List Nat
  | b0 :: b1 :: b2 :: b3 :: rest =>
    (((b0 * 256 + b1) * 256 + b2) * 256 + b3) :: toWords32 rest
  | _ => []

def smallSigma0 (x : Nat) : Nat := (rotr32 x 7) ^^^ (rotr32 x 18) ^^^ (x >>> 3)
def smallSigma1 (x : Nat) : Nat := (rotr32 x 17) ^^^ (rotr32 x 19) ^^^ (x >>> 10)
def bigSigma0 (x : Nat) : Nat := (rotr32 x 2) ^^^ (rotr32 x 13) ^^^ (rotr32 x 22)
def bigSigma1 (x : Nat) : Nat := (rotr32 x 6) ^^^ (rotr32 x 11) ^^^ (rotr32 x 25)

/-- Extend the 16-word schedule by `k` more words. -/
def extendSchedule : Nat → List Nat → List Nat
  | 0, w => w
  | k + 1, w =>
    let i := w.length
    let nw := w32 (smallSigma1 (w.getD (i - 2) 0) + w.getD (i - 7) 0 +
                   smallSigma0 (w.getD (i - 15) 0) + w.getD (i - 16) 0)
    extendSchedule k (w ++ [nw])

/-- One SHA-256 compression round on the state `[a,b,c,d,e,f,g,h]`. -/
def sha256Round (st : List Nat) (wk : Nat × Nat) : List Nat :=
  match st with
  | [a, b, c, d, e, f, g, h] =>
    let ch := (e &&& f) ^^^ (not32 e &&& g)
    let maj := (a &&& b) ^^^ (a &&& c) ^^^ (b &&& c)
    let temp1 := w32 (h + bigSigma1 e + ch + wk.2 + wk.1)
    let temp2 := w32 (bigSigma0 a + maj)
    [w32 (temp1 + temp2), a, b, c, w32 (d + temp1), e, f, g]
  | st => st

/-- Process one 64-byte chunk, updating the hash state `h`. -/
def sha256Chunk (h : List Nat) (chunk : List Nat) : List Nat :=
  let w := extendSchedule 48 (toWords32 chunk)
  let st := (w.zip sha256K).foldl sha256Round h
  List.zipWith (fun x y => w32 (x + y)) h st

/-- SHA-256 digest (32 bytes) of a byte list. -/
def sha256Bytes (msg : List Nat) : List Nat :=
  (((chunks64 (sha256Pad msg)).foldl sha256Chunk sha256H0).map (bytesBE 4)).flatten

/-- UTF-8 encoding of one character. -/
def utf8EncodeChar (c : Char) : List Nat :=
  let n := c.toNat
  if n < 128 then [n]
  else if n < 2048 then [192 + n / 64, 128 + n % 64]
  else if n < 65536 then
    [224 + n / 4096, 128 + (n / 64) % 64, 128 + n % 64]
  else
    [240 + n / 262144, 128 + (n / 4096) % 64, 128 + (n / 64) % 64,
     128 + n % 64]

/-- Python `str.encode('utf-8')`. -/
def strToBytes (s : String) : List Nat :=
  (s.toList.map utf8EncodeChar).flatten

def hexDigitChar (n : Nat) : Char :=
  if n < 10 then Char.ofNat (48 + n) else Char.ofNat (87 + n)

/-- Lowercase hex digest string of a byte list. -/
def bytesToHex (bs : List Nat) : String :=
  String.mk ((bs.map (fun b => [hexDigitChar (b / 16), hexDigitChar (b % 16)])).flatten)

/-- `hashlib.sha256(s.encode('utf-8')).hexdigest()`. -/
def sha256HexOfString (s : String) : String :=
  bytesToHex (sha256Bytes (strToBytes s))

/-! ## Data model (`src/bibtex_parser.py`, `src/metadata_enricher.py`) -/

/-- `BibEntry` from `src/bibtex_parser.py` (the `discovery_date` datetime is
not used by any claim and is omitted); `Optional[str] = None` fields become
`Option String`, `raw_fields : Dict[str, str]` becomes an association list. -/
structure BibEntry where
  entry_type : String
  key : String
  title : Option String
  authors : List String
  year : Option String
  month : Option String
  doi : Option String
  url : Option String
  abstract : Option String
  keywords : List String
  journal : Option String
  volume : Option String
  pages : Option String
  publisher : Option String
  raw_fields : List (String × String)
  deriving DecidableEq, Repr

/-- A `BibEntry` with every optional field absent, for building concrete
witnesses compactly. -/
def emptyEntry : BibEntry :=
  { entry_type := "article", key := "", title := none, authors := [],
    year := none, month := none, doi := none, url := none, abstract := none,
    keywords := [], journal := none, volume := none, pages := none,
    publisher := none, raw_fields := [] }

/-- `EnrichedMetadata` from `src/metadata_enricher.py`; floats become `ℚ`. -/
structure EnrichedMetadata where
  abstract : Option String
  keywords : List String
  doi : Option String
  doi_url : Option String
  url : Option String
  arxiv_url : Option String
  pdf_url : Option String
  publication_date : Option String
  citation_count : Option ℤ
  reference_count : Option ℤ
  venue : Option String
  authors : List String
  subjects : List String
  is_open_access : Option Bool
  source : Option String
  confidence_score : Option ℚ
  deriving DecidableEq, Repr

/-- `EnrichedMetadata()` with all dataclass defaults. -/
def emptyMetadata : EnrichedMetadata :=
  { abstract := none, keywords := [], doi := none, doi_url := none,
    url := none, arxiv_url := none, pdf_url := none, publication_date := none,
    citation_count := none, reference_count := none, venue := none,
    authors := [], subjects := [], is_open_access := none, source := none,
    confidence_score := none }

/-! ## `src/cache.py`: the metadata cache

`datetime.now()` is passed in explicitly as `now : ℤ` (seconds);
`timedelta(days = d)` is `d * 86400`.  The `cache_data` dict is an
association list; `dict[k] = v` and `del dict[k]` become `insertRec` and
`eraseRec` (lookup-equivalent to Python's dict). -/

/-- One value of the `cache_data` dict.  Keys that a record was stored
without (`failed`, `last_failure_at` for success records) are modelled by
the Python read defaults: `failed` reads as `False` when absent, and
`last_failure_at` falls back to `cached_at` (so `none` here means absent). -/
structure CacheRecord where
  entry_key : String
  entry_title : Option String
  cached_at : ℤ
  metadata : Option EnrichedMetadata
  failed : Bool
  failure_reason : Option String
  last_failure_at : Option ℤ
  deriving DecidableEq, Repr

/-- `del cache_data[k]`. -/
def eraseRec (k : String) (m : List (String × CacheRecord)) :
    List (String × CacheRecord) :=
  m.filter (fun p => p.1 ≠ k)

/-- `cache_data[k] = v` (lookup-equivalent overwrite). -/
def insertRec (k : String) (v : CacheRecord) (m : List (String × CacheRecord)) :
    List (String × CacheRecord) :=
  (k, v) :: eraseRec k m

/-- The in-memory state of `MetadataCache`: the duration (seconds, from
`cache_duration_days * 86400`) and the `cache_data` map. -/
structure MetadataCache where
  cache_duration : ℤ
  cache_data : List (String × CacheRecord)
  deriving DecidableEq, Repr

/-- `MetadataCache(cache_duration_days = days)` starting from an empty map. -/
def MetadataCache.init (days : ℤ) : MetadataCache :=
  { cache_duration := days * 86400, cache_data := [] }

/-- `timedelta(days=7)`, the retry interval of `should_retry_failed_entry`. -/
def retryInterval : ℤ := 7 * 86400

/-- `MetadataCache._get_entry_hash`: sha256 of
`f"{title or ''}{','.join(authors)}{year or ''}{doi or ''}"`, first 16 hex
characters. -/
def get_entry_hash (e : BibEntry) : String :=
  let content := (e.title.getD "") ++ strJoin "," e.authors ++
    (e.year.getD "") ++ (e.doi.getD "")
  String.mk ((sha256HexOfString content).toList.take 16)

/-- `MetadataCache.is_cached`: returns the answer and the possibly mutated
cache (an expired record is deleted during the check). -/
def MetadataCache.is_cached (c : MetadataCache) (e : BibEntry) (now : ℤ) :
    Bool × MetadataCache :=
  let h := get_entry_hash e
  match List.lookup h c.cache_data with
  | none => (false, c)
  | some r =>
    if now - r.cached_at > c.cache_duration then
      (false, { c with cache_data := eraseRec h c.cache_data })
    else (true, c)

/-- `MetadataCache.should_retry_failed_entry`. -/
def MetadataCache.should_retry_failed_entry (c : MetadataCache) (e : BibEntry)
    (now : ℤ) : Bool × MetadataCache :=
  let h := get_entry_hash e
  match List.lookup h c.cache_data with
  | none => (true, c)
  | some r =>
    if r.failed = false then
      let bc := c.is_cached e now
      (!bc.1, bc.2)
    else
      let last_failure_time := r.last_failure_at.getD r.cached_at
      if now - last_failure_time > retryInterval then (true, c) else (false, c)

/-- `MetadataCache.get_metadata`. -/
def MetadataCache.get_metadata (c : MetadataCache) (e : BibEntry) (now : ℤ) :
    Option EnrichedMetadata × MetadataCache :=
  let bc := c.is_cached e now
  if bc.1 = false then (none, bc.2)
  else
    match List.lookup (get_entry_hash e) bc.2.cache_data with
    | none => (none, bc.2)
    | some r => (r.metadata, bc.2)

/-- `MetadataCache.store_metadata` (the stored dict has no `failed` /
`last_failure_at` keys, i.e. `failed := false`, `last_failure_at := none`). -/
def MetadataCache.store_metadata (c : MetadataCache) (e : BibEntry)
    (m : EnrichedMetadata) (now : ℤ) : MetadataCache :=
  let r : CacheRecord :=
    { entry_key := e.key, entry_title := e.title, cached_at := now,
      metadata := some m, failed := false, failure_reason := none,
      last_failure_at := none }
  { c with cache_data := insertRec (get_entry_hash e) r c.cache_data }

/-- `MetadataCache.store_failure` (`error_reason or 'Enrichment failed'`:
`None` and `""` both fall back to the default). -/
def MetadataCache.store_failure (c : MetadataCache) (e : BibEntry)
    (error_reason : Option String) (now : ℤ) : MetadataCache :=
  let reason := match error_reason with
    | some s => if s = "" then "Enrichment failed" else s
    | none => "Enrichment failed"
  let r : CacheRecord :=
    { entry_key := e.key, entry_title := e.title, cached_at := now,
      metadata := none, failed := true, failure_reason := some reason,
      last_failure_at := some now }
  { c with cache_data := insertRec (get_entry_hash e) r c.cache_data }

/-- The success record `store_metadata` writes for `e` at time `t` (named
for use in theorem statements; definitionally the record built inside
`store_metadata`). -/
def BibEntry.toSuccessRecord (e : BibEntry) (m : EnrichedMetadata) (t : ℤ) :
    CacheRecord :=
  { entry_key := e.key, entry_title := e.title, cached_at := t,
    metadata := some m, failed := false, failure_reason := none,
    last_failure_at := none }

/-- Entry used in the C5 witness (key `smith2023`). -/
def c5EntryA : BibEntry :=
  { emptyEntry with key := "smith2023", title := some "A Study",
                    authors := ["Ann Smith", "Bo Chen"], year := some "2023",
                    doi := some "10.1234/x" }

/-- Entry used in the C5 witness: same identifying fields as `c5EntryA`,
different key. -/
def c5EntryB : BibEntry :=
  { emptyEntry with key := "chen2024dup", title := some "A Study",
                    authors := ["Ann Smith", "Bo Chen"], year := some "2023",
                    doi := some "10.1234/x" }

/-- Cache state used against C1: a fresh failure record just stored. -/
def c1FailState : MetadataCache :=
  (MetadataCache.init 30).store_failure emptyEntry (some "API timeout") 0

/-- The failure record `c1FailState` holds for `emptyEntry`. -/
def c1FailRecord : CacheRecord :=
  { entry_key := emptyEntry.key, entry_title := emptyEntry.title, cached_at := 0,
    metadata := none, failed := true, failure_reason := some "API timeout",
    last_failure_at := some 0 }

/-- The failure record stored by the C4 witness scenario. -/
def boomFailRecord : CacheRecord :=
  { entry_key := emptyEntry.key, entry_title := emptyEntry.title, cached_at := 0,
    metadata := none, failed := true, failure_reason := some "boom",
    last_failure_at := some 0 }

/-! ## Source clients: DOI lookup (`src/metadata_enricher.py`)

`query_by_doi` is modelled up to its first HTTP request: the retry loop and
response parsing are abstracted as a network oracle `net` giving the final
outcome, and the returned flag records whether any HTTP request was made.
The validation logic before the request is translated from the source. -/

/-- `_clean_doi` (identical in the Crossref, Semantic Scholar and OpenAlex
clients). -/
def clean_doi (doi : String) : String :=
  if doi = "" then ""
  else
    let c := strReplace (strReplace doi "https://doi.org/" "") "http://dx.doi.org/" ""
    strStrip (strReplace c "doi:" "")

/-- `CrossrefClient._is_valid_doi`: length at least 7, starts with `10.`,
and has a `/` after the prefix. -/
def is_valid_doi (doi : String) : Bool :=
  if doi = "" || doi.length < 7 then false
  else subAt "10.".toList doi.toList && (doi.toList.drop 3).contains '/'

/-- `CrossrefClient.query_by_doi`: empty check, clean, syntactic validation,
then (and only then) the HTTP request. -/
def crossref_query_by_doi (net : String → Option EnrichedMetadata)
    (doi : String) : Option EnrichedMetadata × Bool :=
  if doi = "" ∨ strStrip doi = "" then (none, false)
  else
    let cleaned := clean_doi doi
    if is_valid_doi cleaned = false then (none, false)
    else (net cleaned, true)

/-- `SemanticScholarClient.query_by_doi`: empty check, clean, then only a
non-emptiness check on the cleaned DOI before the HTTP request (no syntactic
`10.`-pattern validation). -/
def s2_query_by_doi (net : String → Option EnrichedMetadata)
    (doi : String) : Option EnrichedMetadata × Bool :=
  if doi = "" ∨ strStrip doi = "" then (none, false)
  else
    let cleaned := clean_doi doi
    if cleaned = "" then (none, false)
    else (net cleaned, true)

/-- `OpenAlexClient.query_by_doi`: same shape as the Semantic Scholar client
(no syntactic validation). -/
def openalex_query_by_doi (net : String → Option EnrichedMetadata)
    (doi : String) : Option EnrichedMetadata × Bool :=
  if doi = "" ∨ strStrip doi = "" then (none, false)
  else
    let cleaned := clean_doi doi
    if cleaned = "" then (none, false)
    else (net cleaned, true)

/-! ## Source clients: best-match selection for title search

Candidate API items are modelled with the fields the matching code reads;
JSON key presence / truthiness is modelled with `Option` / emptiness as
noted on each field. -/

/-- Crossref's per-source minimum confidence (`_find_best_title_match`). -/
def crossref_min_confidence : ℚ := 7/10

/-- OpenAlex's per-source minimum confidence (`_find_best_match`). -/
def openalex_min_confidence : ℚ := 7/10

/-- Semantic Scholar's minimum confidence (`_find_best_semantic_match`). -/
def s2_min_confidence : ℚ := 6/10

/-- ArXiv's minimum confidence (`_find_best_arxiv_match`). -/
def arxiv_min_confidence : ℚ := 6/10

/-- A Crossref search item: `title` is the JSON array (`[]` for an absent or
empty value, which Python treats alike via truthiness), `author` the author
array, `score` Crossref's own relevance score (`none` for an absent key;
`some 0` is falsy in the source and treated like absence). -/
structure CrItem where
  title : List String
  author : List CrAuthor
  score : Option ℚ
  deriving DecidableEq, Repr

/-- The score one Crossref item gets in `_find_best_title_match`:
title similarity × 0.7 + author similarity × 0.3 + min(score/100, 0.1). -/
def crScore (query_title : String) (query_author : Option String)
    (item : CrItem) : ℚ :=
  let query_title_clean := clean_title_for_search query_title
  let s1 := match item.title with
    | [] => 0
    | t :: _ =>
      calculate_text_similarity query_title_clean (clean_title_for_search t) true
        * (7/10)
  let s2 := match query_author with
    | some qa =>
      if qa ≠ "" ∧ item.author ≠ [] then
        calculate_crossref_author_similarity qa item.author * (3/10)
      else 0
    | none => 0
  let s3 := match item.score with
    | some sc => if sc ≠ 0 then pyMin (sc / 100) (1/10) else 0
    | none => 0
  s1 + s2 + s3

/-- An accepted Crossref match with its confidence. -/
structure CrMatch where
  item : CrItem
  confidence : ℚ
  deriving DecidableEq, Repr

/-- The selection loop of `CrossrefClient._find_best_title_match`: keep the
best item whose score is strictly above both the best so far and the
threshold. -/
def crFindGo (qt : String) (qa : Option String) :
    List CrItem → ℚ → Option CrMatch → Option CrMatch
  | [], _, best => best
  | item :: rest, best_score, best =>
    let score := crScore qt qa item
    if score > best_score ∧ score > crossref_min_confidence then
      crFindGo qt qa rest score (some ⟨item, score⟩)
    else crFindGo qt qa rest best_score best

/-- `CrossrefClient._find_best_title_match`. -/
def crossref_find_best_title_match (qt : String) (qa : Option String)
    (items : List CrItem) : Option CrMatch :=
  crFindGo qt qa items 0 none

/-- A Semantic Scholar author (`author.get('name', '')`). -/
structure S2Author where
  name : Option String
  deriving DecidableEq, Repr

/-- A Semantic Scholar search paper. -/
structure S2Paper where
  title : Option String
  authors : List S2Author
  deriving DecidableEq, Repr

/-- The score one paper gets in `_find_best_semantic_match`. -/
def s2Score (query_title : String) (query_author : Option String)
    (paper : S2Paper) : ℚ :=
  let query_title_clean := clean_title_for_search query_title
  let s1 := match paper.title with
    | some t =>
      if t ≠ "" then
        calculate_text_similarity query_title_clean (clean_title_for_search t) true
          * (7/10)
      else 0
    | none => 0
  let s2 := match query_author with
    | some qa =>
      if qa ≠ "" ∧ paper.authors ≠ [] then
        calculate_author_similarity qa (paper.authors.map (fun a => a.name.getD ""))
          * (3/10)
      else 0
    | none => 0
  s1 + s2

structure S2Match where
  paper : S2Paper
  confidence : ℚ
  deriving DecidableEq, Repr

/-- The selection loop of `SemanticScholarClient._find_best_semantic_match`. -/
def s2FindGo (qt : String) (qa : Option String) :
    List S2Paper → ℚ → Option S2Match → Option S2Match
  | [], _, best => best
  | p :: rest, best_score, best =>
    let score := s2Score qt qa p
    if score > best_score ∧ score > s2_min_confidence then
      s2FindGo qt qa rest score (some ⟨p, score⟩)
    else s2FindGo qt qa rest best_score best

/-- `SemanticScholarClient._find_best_semantic_match`. -/
def s2_find_best_semantic_match (qt : String) (qa : Option String)
    (papers : List S2Paper) : Option S2Match :=
  s2FindGo qt qa papers 0 none

/-- An ArXiv result (`paper.title` truthiness via `Option`, author names). -/
structure ArxPaper where
  title : Option String
  authors : List String
  deriving DecidableEq, Repr

/-- The score one paper gets in `_find_best_arxiv_match`. -/
def arxScore (query_title : String) (query_author : Option String)
    (paper : ArxPaper) : ℚ :=
  let query_title_clean := clean_title_for_search query_title
  let s1 := match paper.title with
    | some t =>
      if t ≠ "" then
        calculate_text_similarity query_title_clean (clean_title_for_search t) true
          * (7/10)
      else 0
    | none => 0
  let s2 := match query_author with
    | some qa =>
      if qa ≠ "" ∧ paper.authors ≠ [] then
        calculate_author_similarity qa paper.authors * (3/10)
      else 0
    | none => 0
  s1 + s2

structure ArxMatch where
  paper : ArxPaper
  confidence : ℚ
  deriving DecidableEq, Repr

/-- The selection loop of `ArxivClient._find_best_arxiv_match`. -/
def arxFindGo (qt : String) (qa : Option String) :
    List ArxPaper → ℚ → Option ArxMatch → Option ArxMatch
  | [], _, best => best
  | p :: rest, best_score, best =>
    let score := arxScore qt qa p
    if score > best_score ∧ score > arxiv_min_confidence then
      arxFindGo qt qa rest score (some ⟨p, score⟩)
    else arxFindGo qt qa rest best_score best

/-- `ArxivClient._find_best_arxiv_match`. -/
def arxiv_find_best_match (qt : String) (qa : Option String)
    (papers : List ArxPaper) : Option ArxMatch :=
  arxFindGo qt qa papers 0 none

/-- An OpenAlex author (`author.get('display_name', '')`). -/
structure OAAuthor where
  display_name : Option String
  deriving DecidableEq, Repr

/-- An OpenAlex authorship (`authorship.get('author')` truthiness via
`Option`). -/
structure OAAuthorship where
  author : Option OAAuthor
  deriving DecidableEq, Repr

/-- An OpenAlex work. -/
structure OAWork where
  title : Option String
  display_name : Option String
  authorships : List OAAuthorship
  deriving DecidableEq, Repr

/-- `work.get('title') or work.get('display_name', '')`. -/
def oaWorkTitle (w : OAWork) : String :=
  match w.title with
  | some t => if t ≠ "" then t else w.display_name.getD ""
  | none => w.display_name.getD ""

/-- The score one work gets in `OpenAlexClient._find_best_match`. -/
def oaScore (query_title : String) (query_author : Option String)
    (work : OAWork) : ℚ :=
  let query_title_clean := clean_title_for_search query_title
  let work_title := oaWorkTitle work
  let s1 :=
    if work_title ≠ "" then
      calculate_text_similarity query_title_clean
        (clean_title_for_search work_title) true * (7/10)
    else 0
  let s2 := match query_author with
    | some qa =>
      if qa ≠ "" ∧ work.authorships ≠ [] then
        let author_names := (work.authorships.filter (fun s => s.author.isSome)).map
          (fun s => (s.author.map (fun a => a.display_name.getD "")).getD "")
        if author_names ≠ [] then
          calculate_author_similarity qa author_names * (3/10)
        else 0
      else 0
    | none => 0
  s1 + s2

structure OAMatch where
  work : OAWork
  confidence : ℚ
  deriving DecidableEq, Repr

/-- The selection loop of `OpenAlexClient._find_best_match`.  Note the
non-strict `score ≥ min_confidence` (the source reads
`score > best_score and score >= min_confidence`), unlike the three other
clients. -/
def oaFindGo (qt : String) (qa : Option String) :
    List OAWork → ℚ → Option OAMatch → Option OAMatch
  | [], _, best => best
  | w :: rest, best_score, best =>
    let score := oaScore qt qa w
    if score > best_score ∧ score ≥ openalex_min_confidence then
      oaFindGo qt qa rest score (some ⟨w, score⟩)
    else oaFindGo qt qa rest best_score best

/-- `OpenAlexClient._find_best_match`. -/
def openalex_find_best_match (qt : String) (qa : Option String)
    (works : List OAWork) : Option OAMatch :=
  oaFindGo qt qa works 0 none

/-! ## Enrichment orchestrator (`MetadataEnricher`)

Client API calls are abstracted as oracles; an oracle call can return
metadata, return `None`, or raise (the `except` arms of the source).  The
circuit-breaker counters are threaded explicitly, and each DOI/title chain
additionally records the trace of sources actually queried, so that
"skipped without being queried" is a statement about the model. -/

/-- Outcome of one client API call: an exception, or a returned
`Optional[EnrichedMetadata]`. -/
inductive ApiResult where
  | raises
  | returns (m : Option EnrichedMetadata)
  deriving DecidableEq, Repr

/-- Which sources the orchestrator can query in a DOI/title chain. -/
inductive ApiSource where
  | crossref
  | openalex
  | semanticScholar
  deriving DecidableEq, Repr

/-- `self.api_failure_counts` from `MetadataEnricher.__init__`. -/
structure ApiFailureCounts where
  crossref : Nat
  semantic_scholar : Nat
  arxiv : Nat
  openalex : Nat
  deriving DecidableEq, Repr

/-- `self.max_consecutive_failures = 5`. -/
def max_consecutive_failures : Nat := 5

/-- Which clients were constructed (`self.crossref_client is not None`,
etc.). -/
structure EnabledClients where
  crossref : Bool
  semantic_scholar : Bool
  arxiv : Bool
  openalex : Bool
  deriving DecidableEq, Repr

/-- The oracles feeding the orchestrator: outcomes of the client calls, and
the URL-title heuristic.  `extractTitle` abstracts
`utils.extract_title_from_url` (URL parsing); every theorem below holds for
an arbitrary behaviour of it. -/
structure Oracles where
  crossrefDoi : String → ApiResult
  openalexDoi : String → ApiResult
  s2Doi : String → ApiResult
  crossrefTitle : String → Option String → ApiResult
  openalexTitle : String → Option String → ApiResult
  s2Title : String → Option String → Option String → ApiResult
  arxivTitle : Option String → Option String → Option EnrichedMetadata
  extractTitle : String → String

/-- Semantic Scholar leg of `MetadataEnricher._enrich_by_doi`. -/
def doiStepS2 (o : Oracles) (en : EnabledClients) (c : ApiFailureCounts)
    (doi : String) : Option EnrichedMetadata × ApiFailureCounts × List ApiSource :=
  if en.semantic_scholar ∧ c.semantic_scholar < max_consecutive_failures then
    match o.s2Doi doi with
    | .returns (some m) =>
      (some m, { c with semantic_scholar := 0 }, [.semanticScholar])
    | .returns none =>
      (none, { c with semantic_scholar := c.semantic_scholar + 1 },
       [.semanticScholar])
    | .raises =>
      (none, { c with semantic_scholar := c.semantic_scholar + 1 },
       [.semanticScholar])
  else (none, c, [])

/-- OpenAlex leg of `MetadataEnricher._enrich_by_doi`, falling through to
Semantic Scholar. -/
def doiStepOA (o : Oracles) (en : EnabledClients) (c : ApiFailureCounts)
    (doi : String) : Option EnrichedMetadata × ApiFailureCounts × List ApiSource :=
  if en.openalex ∧ c.openalex < max_consecutive_failures then
    match o.openalexDoi doi with
    | .returns (some m) => (some m, { c with openalex := 0 }, [.openalex])
    | .returns none =>
      let r := doiStepS2 o en { c with openalex := c.openalex + 1 } doi
      (r.1, r.2.1, .openalex :: r.2.2)
    | .raises =>
      let r := doiStepS2 o en { c with openalex := c.openalex + 1 } doi
      (r.1, r.2.1, .openalex :: r.2.2)
  else doiStepS2 o en c doi

/-- `MetadataEnricher._enrich_by_doi`: Crossref, then OpenAlex, then
Semantic Scholar; a source with 5 or more consecutive failures is skipped;
the first non-null result is returned; a null result or an exception
increments the source's counter and a success resets it. -/
def enrich_by_doi (o : Oracles) (en : EnabledClients) (c : ApiFailureCounts)
    (doi : String) : Option EnrichedMetadata × ApiFailureCounts × List ApiSource :=
  if en.crossref ∧ c.crossref < max_consecutive_failures then
    match o.crossrefDoi doi with
    | .returns (some m) => (some m, { c with crossref := 0 }, [.crossref])
    | .returns none =>
      let r := doiStepOA o en { c with crossref := c.crossref + 1 } doi
      (r.1, r.2.1, .crossref :: r.2.2)
    | .raises =>
      let r := doiStepOA o en { c with crossref := c.crossref + 1 } doi
      (r.1, r.2.1, .crossref :: r.2.2)
  else doiStepOA o en c doi

/-- Semantic Scholar leg of `MetadataEnricher._enrich_by_title`
(threshold 0.7; counter incremented only when the call raises; `0.0`
confidence is falsy and rejected). -/
def titleStepS2 (o : Oracles) (en : EnabledClients) (c : ApiFailureCounts)
    (title : String) (author year : Option String) :
    Option EnrichedMetadata × ApiFailureCounts :=
  if en.semantic_scholar ∧ c.semantic_scholar < max_consecutive_failures then
    match o.s2Title title author year with
    | .returns (some m) =>
      match m.confidence_score with
      | some conf =>
        if conf ≠ 0 ∧ conf > 7/10 then (some m, { c with semantic_scholar := 0 })
        else (none, c)
      | none => (none, c)
    | .returns none => (none, c)
    | .raises => (none, { c with semantic_scholar := c.semantic_scholar + 1 })
  else (none, c)

/-- OpenAlex leg of `MetadataEnricher._enrich_by_title` (threshold 0.7). -/
def titleStepOA (o : Oracles) (en : EnabledClients) (c : ApiFailureCounts)
    (title : String) (author year : Option String) :
    Option EnrichedMetadata × ApiFailureCounts :=
  if en.openalex ∧ c.openalex < max_consecutive_failures then
    match o.openalexTitle title author with
    | .returns (some m) =>
      match m.confidence_score with
      | some conf =>
        if conf ≠ 0 ∧ conf > 7/10 then (some m, { c with openalex := 0 })
        else titleStepS2 o en c title author year
      | none => titleStepS2 o en c title author year
    | .returns none => titleStepS2 o en c title author year
    | .raises =>
      titleStepS2 o en { c with openalex := c.openalex + 1 } title author year
  else titleStepS2 o en c title author year

/-- `MetadataEnricher._enrich_by_title`: Crossref (threshold 0.75), then
OpenAlex (0.7), then Semantic Scholar (0.7). -/
def enrich_by_title (o : Oracles) (en : EnabledClients) (c : ApiFailureCounts)
    (title : String) (author year : Option String) :
    Option EnrichedMetadata × ApiFailureCounts :=
  if en.crossref ∧ c.crossref < max_consecutive_failures then
    match o.crossrefTitle title author with
    | .returns (some m) =>
      match m.confidence_score with
      | some conf =>
        if conf ≠ 0 ∧ conf > 3/4 then (some m, { c with crossref := 0 })
        else titleStepOA o en c title author year
      | none => titleStepOA o en c title author year
    | .returns none => titleStepOA o en c title author year
    | .raises =>
      titleStepOA o en { c with crossref := c.crossref + 1 } title author year
  else titleStepOA o en c title author year

/-- Python truthiness of an `Optional[str]` field. -/
def optTruthy : Option String → Bool
  | none => false
  | some s => s ≠ ""

/-- `raw_fields.get(k, d)`. -/
def rawGet (e : BibEntry) (k d : String) : String :=
  (List.lookup k e.raw_fields).getD d

/-- `InstitutionalReportEnricher.enrich_report` together with its
`_enrich_data_society_report` helper. -/
def enrich_report (e : BibEntry) : Option EnrichedMetadata :=
  if strLower e.entry_type ≠ "techreport" then none
  else
    let institution := strLower (rawGet e "institution" "")
    if strIn "data" institution && strIn "society" institution then
      match e.title with
      | none => none
      | some t =>
        if t = "" then none
        else if strIn "red-teaming" (strLower t) && strIn "public interest" (strLower t) then
          some { emptyMetadata with
            source := some "datasociety",
            abstract := List.lookup "abstract" e.raw_fields,
            publication_date := some (rawGet e "year" "2025"),
            pdf_url := some "https://datasociety.net/wp-content/uploads/2025/02/Red-Teaming-in_the_Public_Interest_FINAL1.pdf",
            url := some "https://datasociety.net/library/red-teaming-in-the-public-interest/",
            is_open_access := some true,
            authors := ["Ranjit Singh", "Borhane Blili-Hamelin", "Carol Anderson",
                        "Emnet Tafesse", "Briana Vecchione", "Beth Duckles",
                        "Jacob Metcalf"],
            venue := some "Data & Society" }
        else none
    else none

/-- `re.match(r'^\d{4}\.\d{4,5}$', s)`: a new-style ArXiv identifier. -/
def matchNewArxivId (s : String) : Bool :=
  match strSplitOn s "." with
  | [a, b] =>
    a.length = 4 && a.toList.all Char.isDigit &&
      (b.length = 4 || b.length = 5) && b.toList.all Char.isDigit
  | _ => false

/-- `re.match(r'^[a-z-]+/\d{7}$', s)`: an old-style ArXiv identifier. -/
def matchOldArxivId (s : String) : Bool :=
  match strSplitOn s "/" with
  | [a, b] =>
    a ≠ "" && a.toList.all (fun c => ('a' ≤ c && c ≤ 'z') || c = '-') &&
      b.length = 7 && b.toList.all Char.isDigit
  | _ => false

/-- `MetadataEnricher._is_arxiv_paper`. -/
def is_arxiv_paper (e : BibEntry) : Bool :=
  (match e.journal with
   | some j => strIn "arxiv" (strLower j)
   | none => false) ||
  ([e.doi, e.url].any (fun fv =>
    match fv with
    | some v => v ≠ "" && (strIn "arxiv" (strLower v) || subAt "arXiv:".toList v.toList)
    | none => false)) ||
  (e.raw_fields.any (fun p =>
    (["archiveprefix", "eprint", "primaryclass"].contains (strLower p.1) &&
       strIn "arxiv" (strLower p.2)) ||
    (strLower p.1 = "eprint" && p.2 ≠ "" &&
       (matchNewArxivId p.2 || matchOldArxivId p.2))))

/-- `entry.url` / `entry.title` joined author string:
`', '.join(entry.authors) if entry.authors else None`. -/
def entryAuthor (e : BibEntry) : Option String :=
  if e.authors ≠ [] then some (strJoin ", " e.authors) else none

/-- The open-access domain list of `MetadataEnricher._enrich_by_url`. -/
def open_access_domains : List String :=
  ["arxiv.org", "biorxiv.org", "medrxiv.org", "osf.io",
   "zenodo.org", "ssrn.com", "researchgate.net"]

/-- The minimal metadata `_enrich_by_url` synthesizes when every search
strategy failed: just the cleaned URL, `source = "url"`, and an open-access
guess from the domain list. -/
def urlFallbackMetadata (url : String) : EnrichedMetadata :=
  { emptyMetadata with
    source := some "url",
    url := some url,
    is_open_access :=
      if open_access_domains.any (fun d => strIn d (strLower url))
      then some true else none }

/-- `MetadataEnricher._enrich_by_url`: clean the URL, try the URL-extracted
title (when at least 10 characters) through the title chain, and otherwise
synthesize `urlFallbackMetadata`. -/
def enrich_by_url (o : Oracles) (en : EnabledClients) (c : ApiFailureCounts)
    (e : BibEntry) : Option EnrichedMetadata × ApiFailureCounts :=
  match e.url with
  | none => (none, c)
  | some u =>
    if u = "" then (none, c)
    else
      let url := clean_url u
      let url_title := o.extractTitle url
      let afterTitle :=
        if url_title ≠ "" ∧ url_title.length ≥ 10 then
          enrich_by_title o en c url_title (entryAuthor e) e.year
        else (none, c)
      match afterTitle.1 with
      | some m => (some m, afterTitle.2)
      | none => (some (urlFallbackMetadata url), afterTitle.2)

/-- The DOI leg of `MetadataEnricher.enrich_entry`: run the DOI chain when
the entry has a non-empty DOI. -/
def entryDoiStep (o : Oracles) (en : EnabledClients) (c : ApiFailureCounts)
    (e : BibEntry) : Option EnrichedMetadata × ApiFailureCounts :=
  match e.doi with
  | some d =>
    if d ≠ "" then
      let r := enrich_by_doi o en c d
      (r.1, r.2.1)
    else (none, c)
  | none => (none, c)

/-- The title leg of `MetadataEnricher.enrich_entry`: run the title chain
when the DOI leg failed and the entry has a valid non-empty title. -/
def entryTitleStep (o : Oracles) (en : EnabledClients) (e : BibEntry)
    (afterDoi : Option EnrichedMetadata × ApiFailureCounts) :
    Option EnrichedMetadata × ApiFailureCounts :=
  match afterDoi.1 with
  | some m => (some m, afterDoi.2)
  | none =>
    if optTruthy e.title ∧ is_valid_title (e.title.getD "") then
      enrich_by_title o en afterDoi.2 (e.title.getD "") (entryAuthor e) e.year
    else (none, afterDoi.2)

/-- The tail of `MetadataEnricher.enrich_entry`: return the DOI/title-chain
result when non-null, otherwise fall back to the URL strategy for entries
with a non-empty URL. -/
def entryUrlStep (o : Oracles) (en : EnabledClients) (e : BibEntry)
    (afterTitle : Option EnrichedMetadata × ApiFailureCounts) :
    Option EnrichedMetadata × ApiFailureCounts :=
  match afterTitle.1 with
  | some m => (some m, afterTitle.2)
  | none =>
    if optTruthy e.url then enrich_by_url o en afterTitle.2 e
    else (none, afterTitle.2)

/-- `MetadataEnricher.enrich_entry`: institutional-report lookup for
`techreport` entries, ArXiv-first for detected ArXiv papers, then the DOI
chain, the title chain, and the URL fallback. -/
def enrich_entry (o : Oracles) (en : EnabledClients) (c : ApiFailureCounts)
    (e : BibEntry) : Option EnrichedMetadata × ApiFailureCounts :=
  match (if strLower e.entry_type = "techreport" then enrich_report e
         else none) with
  | some m => (some m, c)
  | none =>
    match (if is_arxiv_paper e ∧ en.arxiv then
             o.arxivTitle e.title (entryAuthor e)
           else none) with
    | some m => (some m, c)
    | none =>
      entryUrlStep o en e (entryTitleStep o en e (entryDoiStep o en c e))

/-- A concrete oracle for the orchestrator witnesses: Crossref DOI lookups
return null, OpenAlex DOI lookups succeed, Semantic Scholar raises, title
searches find nothing and URLs yield no title. -/
def c2Oracle : Oracles :=
  { crossrefDoi := fun _ => .returns none,
    openalexDoi := fun _ => .returns (some emptyMetadata),
    s2Doi := fun _ => .raises,
    crossrefTitle := fun _ _ => .returns none,
    openalexTitle := fun _ _ => .returns none,
    s2Title := fun _ _ _ => .returns none,
    arxivTitle := fun _ _ => none,
    extractTitle := fun _ => "" }

/-- All four clients constructed. -/
def allClients : EnabledClients :=
  { crossref := true, semantic_scholar := true, arxiv := true, openalex := true }

/-- Failure counters after five consecutive Crossref failures. -/
def c2Counts : ApiFailureCounts :=
  { crossref := 5, semantic_scholar := 0, arxiv := 0, openalex := 0 }

/-- All failure counters at zero (the `__init__` state). -/
def zeroCounts : ApiFailureCounts :=
  { crossref := 0, semantic_scholar := 0, arxiv := 0, openalex := 0 }

/-- The C9 witness entry: no DOI and no title, only a URL. -/
def c9Entry : BibEntry :=
  { emptyEntry with key := "web2024",
                    url := some "https://arxiv.org/abs/2501.00123" }

/-! ## Helper lemmas on the similarity functions -/

theorem subAt_self (l : List Char) : subAt l l = true := by
  induction l with
  | nil => rfl
  | cons c rest ih => simp [subAt, ih]

theorem occursIn_self (l : List Char) : occursIn l l = true := by
  cases l with
  | nil => rfl
  | cons c rest => simp [occursIn, subAt_self]

theorem strIn_self (s : String) : strIn s s = true :=
  occursIn_self s.toList

theorem pySplitWS_empty : pySplitWS "" = [] := rfl

theorem strLower_empty : strLower "" = "" := rfl

/-- The similarity is symmetric in its two text arguments. -/
theorem sim_comm (a b : String) (u : Bool) :
    calculate_text_similarity a b u = calculate_text_similarity b a u := by
  simp only [calculate_text_similarity]
  simp only [or_comm, Finset.inter_comm, Finset.union_comm]

/-- The guarded Jaccard quotient is nonnegative. -/
theorem jaccard_nonneg (A B : Finset String) :
    (0:ℚ) ≤ (if (A ∪ B) ≠ ∅ then ((A ∩ B).card : ℚ) / ((A ∪ B).card : ℚ) else 0) := by
  split
  · positivity
  · exact le_refl (0:ℚ)

/-- The capped, possibly bonus-boosted Jaccard value is nonnegative. -/
theorem pyMin_bonus_nonneg (A B : Finset String) (p : Prop) [Decidable p] :
    0 ≤ pyMin
      (if p then
        (if (A ∪ B) ≠ ∅ then ((A ∩ B).card : ℚ) / ((A ∪ B).card : ℚ) else 0) + 2/10
       else
        (if (A ∪ B) ≠ ∅ then ((A ∩ B).card : ℚ) / ((A ∪ B).card : ℚ) else 0)) 1 := by
  rw [pyMin_eq]
  refine le_min ?_ (zero_le_one : (0:ℚ) ≤ 1)
  split
  · exact add_nonneg (jaccard_nonneg _ _) (by norm_num)
  · exact jaccard_nonneg _ _

theorem pyMin_le_one (x : ℚ) : pyMin x 1 ≤ 1 := by
  rw [pyMin_eq]
  exact min_le_right _ _

/-- The similarity is nonnegative. -/
theorem sim_nonneg (a b : String) (u : Bool) :
    0 ≤ calculate_text_similarity a b u := by
  cases u with
  | true =>
    simp only [calculate_text_similarity, eq_self_iff_true, if_true]
    split
    · exact le_refl (0:ℚ)
    split
    · exact le_refl (0:ℚ)
    split
    · exact le_refl (0:ℚ)
    exact pyMin_bonus_nonneg _ _ _
  | false =>
    simp only [calculate_text_similarity, Bool.false_eq_true, if_false]
    split
    · exact le_refl (0:ℚ)
    split
    · exact le_refl (0:ℚ)
    exact pyMin_bonus_nonneg _ _ _

/-- The similarity is at most one. -/
theorem sim_le_one (a b : String) (u : Bool) :
    calculate_text_similarity a b u ≤ 1 := by
  cases u with
  | true =>
    simp only [calculate_text_similarity, eq_self_iff_true, if_true]
    split
    · exact (zero_le_one : (0:ℚ) ≤ 1)
    split
    · exact (zero_le_one : (0:ℚ) ≤ 1)
    split
    · exact (zero_le_one : (0:ℚ) ≤ 1)
    exact pyMin_le_one _
  | false =>
    simp only [calculate_text_similarity, Bool.false_eq_true, if_false]
    split
    · exact (zero_le_one : (0:ℚ) ≤ 1)
    split
    · exact (zero_le_one : (0:ℚ) ≤ 1)
    exact pyMin_le_one _

/-- Self-similarity is exactly one when the stop-word-filtered token set is
non-empty: the Jaccard index is 1 and the substring bonus pushes past the
cap. -/
theorem sim_self (x : String)
    (hx : (pySplitWS (strLower x)).toFinset \ STOP_WORDS ≠ ∅) :
    calculate_text_similarity x x true = 1 := by
  have hxner : ¬((pySplitWS (strLower x)).toFinset = ∅ ∨
      (pySplitWS (strLower x)).toFinset = ∅) := by
    rintro (h | h) <;> exact hx (by rw [h]; exact Finset.empty_sdiff _)
  have hxne : ¬(x = "" ∨ x = "") := by
    rintro (h | h) <;>
      exact hxner (Or.inl (by rw [h]; rfl))
  have h3 : ¬((pySplitWS (strLower x)).toFinset \ STOP_WORDS = ∅ ∨
      (pySplitWS (strLower x)).toFinset \ STOP_WORDS = ∅) := by
    rintro (h | h) <;> exact hx h
  have hcard : (((pySplitWS (strLower x)).toFinset \ STOP_WORDS).card : ℚ) ≠ 0 := by
    exact_mod_cast Finset.card_ne_zero.mpr (Finset.nonempty_iff_ne_empty.mpr hx)
  simp only [calculate_text_similarity, if_neg hxne, if_neg hxner, if_neg h3,
    if_true, Finset.inter_self, Finset.union_self, strIn_self,
    if_pos (Or.inl rfl), if_pos hx, div_self hcard, pyMin_eq]
  rw [min_eq_right (by norm_num)]

/-- C8: `calculate_text_similarity` is symmetric, always lands in `[0, 1]`,
and gives a self-similarity of at least `0.9` for any non-trivial string
(one with at least one lowercased token outside the stop-word set). -/
theorem c8_similarity_properties (a b x : String)
    (hx : (pySplitWS (strLower x)).toFinset \ STOP_WORDS ≠ ∅) :
    calculate_text_similarity a b true = calculate_text_similarity b a true ∧
    0 ≤ calculate_text_similarity a b true ∧
    calculate_text_similarity a b true ≤ 1 ∧
    9/10 ≤ calculate_text_similarity x x true :=
  ⟨sim_comm a b true, sim_nonneg a b true, sim_le_one a b true,
   by rw [sim_self x hx]; norm_num⟩

/-- Witness for C8 at concrete inputs. -/
theorem c8_similarity_properties_witness :
    ((pySplitWS (strLower "Deep Learning")).toFinset \ STOP_WORDS ≠ ∅) ∧
    (calculate_text_similarity "alpha beta" "beta gamma" true =
       calculate_text_similarity "beta gamma" "alpha beta" true ∧
     0 ≤ calculate_text_similarity "alpha beta" "beta gamma" true ∧
     calculate_text_similarity "alpha beta" "beta gamma" true ≤ 1 ∧
     9/10 ≤ calculate_text_similarity "Deep Learning" "Deep Learning" true) :=
  ⟨by decide, c8_similarity_properties "alpha beta" "beta gamma" "Deep Learning"
    (by decide)⟩

/-- C10: when every lowercased whitespace token of both strings is a stop
word, the similarity is `0`: the filtered token sets are empty and the
function returns early, so the substring bonus is never applied. -/
theorem c10_all_stopwords_zero (a b : String)
    (ha : ∀ w ∈ pySplitWS (strLower a), w ∈ STOP_WORDS)
    (_hb : ∀ w ∈ pySplitWS (strLower b), w ∈ STOP_WORDS) :
    calculate_text_similarity a b true = 0 := by
  have hA : (pySplitWS (strLower a)).toFinset \ STOP_WORDS = ∅ :=
    Finset.sdiff_eq_empty_iff_subset.mpr
      (fun w hw => ha w (List.mem_toFinset.mp hw))
  simp only [calculate_text_similarity, if_true, hA, eq_self_iff_true, true_or]
  split
  · rfl
  split
  · rfl
  rfl

/-- Witness for C10: `"the and"` compared with itself gives `0`, not the
substring-bonus value. -/
theorem c10_all_stopwords_zero_witness :
    (∀ w ∈ pySplitWS (strLower "the and"), w ∈ STOP_WORDS) ∧
    calculate_text_similarity "the and" "the and" true = 0 :=
  ⟨by decide, c10_all_stopwords_zero "the and" "the and" (by decide) (by decide)⟩

/-! ## Helper lemmas on the cache map and the hash length -/

theorem lookup_insertRec_self (k : String) (v : CacheRecord)
    (m : List (String × CacheRecord)) :
    List.lookup k (insertRec k v m) = some v := by
  simp [insertRec, List.lookup]

theorem bytesBE_length (k n : Nat) : (bytesBE k n).length = k := by
  induction k generalizing n with
  | zero => rfl
  | succ k ih => simp [bytesBE, ih]

theorem sha256Round_length (st : List Nat) (wk : Nat × Nat) :
    (sha256Round st wk).length = st.length := by
  unfold sha256Round
  split <;> simp

theorem foldl_sha256Round_length (l : List (Nat × Nat)) (st : List Nat) :
    (l.foldl sha256Round st).length = st.length := by
  induction l generalizing st with
  | nil => rfl
  | cons x xs ih => simp [List.foldl_cons, ih, sha256Round_length]

theorem sha256Chunk_length (h chunk : List Nat) (hh : h.length = 8) :
    (sha256Chunk h chunk).length = 8 := by
  unfold sha256Chunk
  simp [List.length_zipWith, foldl_sha256Round_length, hh]

theorem foldl_sha256Chunk_length (chs : List (List Nat)) (h : List Nat)
    (hh : h.length = 8) : (chs.foldl sha256Chunk h).length = 8 := by
  induction chs generalizing h with
  | nil => exact hh
  | cons x xs ih => simp [List.foldl_cons, ih _ (sha256Chunk_length _ _ hh)]

theorem sha256Bytes_length (msg : List Nat) : (sha256Bytes msg).length = 32 := by
  unfold sha256Bytes
  have h8 : ((chunks64 (sha256Pad msg)).foldl sha256Chunk sha256H0).length = 8 :=
    foldl_sha256Chunk_length _ _ rfl
  have hmap : ∀ l : List Nat,
      (l.map (List.length ∘ bytesBE 4)).sum = 4 * l.length := by
    intro l
    induction l with
    | nil => rfl
    | cons x xs ih =>
      simp only [List.map_cons, List.sum_cons, ih, Function.comp_apply,
        bytesBE_length, List.length_cons]
      ring
  rw [List.length_flatten, List.map_map, hmap, h8]

theorem bytesToHex_toList_length (bs : List Nat) :
    (bytesToHex bs).toList.length = 2 * bs.length := by
  show (List.flatten (bs.map fun b =>
    [hexDigitChar (b / 16), hexDigitChar (b % 16)])).length = 2 * bs.length
  rw [List.length_flatten, List.map_map]
  induction bs with
  | nil => rfl
  | cons b rest ih =>
    rw [List.map_cons, List.sum_cons, ih]
    show 2 + 2 * rest.length = 2 * (rest.length + 1)
    ring

theorem get_entry_hash_length (e : BibEntry) : (get_entry_hash e).length = 16 := by
  unfold get_entry_hash
  show (List.take 16 _).length = 16
  rw [List.length_take]
  have h64 : (sha256HexOfString ((e.title.getD "") ++ strJoin "," e.authors ++
      (e.year.getD "") ++ (e.doi.getD ""))).toList.length = 64 := by
    unfold sha256HexOfString
    rw [bytesToHex_toList_length, sha256Bytes_length]
  omega

/-! ## Claims C1, C4, C5, C6 (the metadata cache) -/

/-- C5: the cache fingerprint depends only on title, ordered author list,
year and DOI (each absent field reading as the empty string, authors joined
with commas), so two entries equal on those fields get the identical hash
whatever their citation keys; the hash is 16 characters long. -/
theorem c5_entry_hash_stable (e1 e2 : BibEntry)
    (ht : e1.title = e2.title) (ha : e1.authors = e2.authors)
    (hy : e1.year = e2.year) (hd : e1.doi = e2.doi) :
    get_entry_hash e1 = get_entry_hash e2 ∧ (get_entry_hash e1).length = 16 := by
  constructor
  · unfold get_entry_hash
    rw [ht, ha, hy, hd]
  · exact get_entry_hash_length e1

/-- Witness for C5: two entries with different citation keys but equal
identifying fields get the same 16-character fingerprint. -/
theorem c5_entry_hash_stable_witness :
    c5EntryA.key ≠ c5EntryB.key ∧
    get_entry_hash c5EntryA = get_entry_hash c5EntryB ∧
    (get_entry_hash c5EntryA).length = 16 :=
  ⟨by decide, c5_entry_hash_stable c5EntryA c5EntryB rfl rfl rfl rfl⟩

/-- C1 (amended): `is_cached` returns true iff a record for the entry's
fingerprint exists and `now - cached_at ≤ duration` — the failure flag is
not consulted; a record past the duration is deleted from the map during
the check, with false returned; a missing record gives false and leaves the
cache unchanged. -/
theorem c1_is_cached_amended (c : MetadataCache) (e : BibEntry) (now : ℤ) :
    ((c.is_cached e now).1 = true ↔
      ∃ r, List.lookup (get_entry_hash e) c.cache_data = some r ∧
        now - r.cached_at ≤ c.cache_duration) ∧
    (List.lookup (get_entry_hash e) c.cache_data = none →
      c.is_cached e now = (false, c)) ∧
    (∀ r, List.lookup (get_entry_hash e) c.cache_data = some r →
      now - r.cached_at > c.cache_duration →
      c.is_cached e now =
        (false, { c with cache_data := eraseRec (get_entry_hash e) c.cache_data })) := by
  refine ⟨?_, ?_, ?_⟩
  · unfold MetadataCache.is_cached
    cases hl : List.lookup (get_entry_hash e) c.cache_data with
    | none => simp [hl]
    | some r =>
      simp only [hl]
      split
      · next hgt =>
        refine iff_of_false Bool.false_ne_true ?_
        rintro ⟨r', hr', hle⟩
        injection hr' with h
        subst h
        exact absurd hgt (not_lt.mpr hle)
      · next hgt =>
        exact iff_of_true rfl ⟨r, rfl, not_lt.mp hgt⟩
  · intro hl
    unfold MetadataCache.is_cached
    simp only [hl]
  · intro r hl hgt
    unfold MetadataCache.is_cached
    simp only [hl, if_pos hgt]

/-- Witness for C1's amended statement: an empty cache reports not-cached. -/
theorem c1_is_cached_amended_witness :
    List.lookup (get_entry_hash emptyEntry) (MetadataCache.init 30).cache_data = none ∧
    (MetadataCache.init 30).is_cached emptyEntry 0 = (false, MetadataCache.init 30) :=
  ⟨rfl, (c1_is_cached_amended (MetadataCache.init 30) emptyEntry 0).2.1 rfl⟩

/-- Counterexample to C1 as stated: immediately after `store_failure` the
record is a failure record, yet `is_cached` reports true — so "true iff a
record exists, is not a failure record, and is unexpired" fails here. -/
theorem c1_is_cached_counterexample :
    ¬((c1FailState.is_cached emptyEntry 0).1 = true ↔
      ∃ r, List.lookup (get_entry_hash emptyEntry) c1FailState.cache_data = some r ∧
        r.failed = false ∧ (0:ℤ) - r.cached_at ≤ c1FailState.cache_duration) := by
  intro h
  have hlook : List.lookup (get_entry_hash emptyEntry) c1FailState.cache_data =
      some c1FailRecord :=
    lookup_insertRec_self _ _ _
  have hres : (c1FailState.is_cached emptyEntry 0).1 = true := by
    unfold MetadataCache.is_cached
    simp only [hlook]
    norm_num [c1FailRecord, c1FailState, MetadataCache.init,
      MetadataCache.store_failure]
  obtain ⟨r, hr, hfail, _⟩ := h.mp hres
  rw [hlook] at hr
  injection hr with h2
  subst h2
  exact absurd hfail (by decide)

/-- C4: `should_retry_failed_entry` is true when no record exists; equals the
negation of `is_cached` for a non-failure record; is false immediately after
`store_failure`; and is true once strictly more than 7 days have passed
since `last_failure_at`. -/
theorem c4_should_retry (c : MetadataCache) (e : BibEntry) (r : CacheRecord)
    (now t lf : ℤ) (reason : Option String) :
    (List.lookup (get_entry_hash e) c.cache_data = none →
      (c.should_retry_failed_entry e now).1 = true) ∧
    (List.lookup (get_entry_hash e) c.cache_data = some r → r.failed = false →
      (c.should_retry_failed_entry e now).1 = !(c.is_cached e now).1) ∧
    (((c.store_failure e reason t).should_retry_failed_entry e t).1 = false) ∧
    (List.lookup (get_entry_hash e) c.cache_data = some r → r.failed = true →
      r.last_failure_at = some lf → now - lf > retryInterval →
      (c.should_retry_failed_entry e now).1 = true) := by
  refine ⟨?_, ?_, ?_, ?_⟩
  · intro hl
    unfold MetadataCache.should_retry_failed_entry
    simp only [hl]
  · intro hl hfail
    unfold MetadataCache.should_retry_failed_entry
    simp only [hl, hfail, eq_self_iff_true, if_true]
  · unfold MetadataCache.should_retry_failed_entry MetadataCache.store_failure
    simp only [lookup_insertRec_self]
    norm_num [retryInterval, sub_self]
  · intro hl hfail hlf hgt
    unfold MetadataCache.should_retry_failed_entry
    simp only [hl, hfail, hlf, Option.getD_some]
    simp [if_pos hgt]

/-- Witness for C4 at a concrete cache state and timestamps: false right
after the failure is stored, true 8 days later. -/
theorem c4_should_retry_witness :
    ((((MetadataCache.init 30).store_failure emptyEntry (some "boom") 0).should_retry_failed_entry
        emptyEntry 0).1 = false) ∧
    ((((MetadataCache.init 30).store_failure emptyEntry (some "boom") 0).should_retry_failed_entry
        emptyEntry (8 * 86400)).1 = true) := by
  refine ⟨(c4_should_retry (MetadataCache.init 30) emptyEntry
      boomFailRecord 0 0 0 (some "boom")).2.2.1, ?_⟩
  exact (c4_should_retry ((MetadataCache.init 30).store_failure emptyEntry (some "boom") 0)
      emptyEntry boomFailRecord (8 * 86400) 0 0 (some "boom")).2.2.2
    (lookup_insertRec_self _ _ _) rfl rfl (by norm_num [retryInterval])

/-- C6: storing success metadata and immediately reading it back returns
exactly the stored value; once strictly more than the cache duration has
elapsed, `is_cached` is false and `get_metadata` returns null. -/
theorem c6_cache_roundtrip (c : MetadataCache) (e : BibEntry)
    (m : EnrichedMetadata) (now later : ℤ) (hdur : 0 ≤ c.cache_duration) :
    ((c.store_metadata e m now).get_metadata e now).1 = some m ∧
    (later - now > c.cache_duration →
      ((c.store_metadata e m now).is_cached e later).1 = false ∧
      ((c.store_metadata e m now).get_metadata e later).1 = none) := by
  have hlook : List.lookup (get_entry_hash e) (c.store_metadata e m now).cache_data =
      some (e.toSuccessRecord m now) :=
    lookup_insertRec_self _ _ _
  have hic : (c.store_metadata e m now).is_cached e now =
      (true, c.store_metadata e m now) := by
    unfold MetadataCache.is_cached
    simp only [hlook]
    rw [if_neg (show ¬(now - (e.toSuccessRecord m now).cached_at >
      (c.store_metadata e m now).cache_duration) from by
        show ¬(now - now > c.cache_duration)
        rw [sub_self]
        exact not_lt.mpr hdur)]
  constructor
  · unfold MetadataCache.get_metadata
    simp only [hic, hlook]
    simp [BibEntry.toSuccessRecord]
  · intro hgt
    have hic2 : (c.store_metadata e m now).is_cached e later =
        (false, { c.store_metadata e m now with
                  cache_data := eraseRec (get_entry_hash e)
                    (c.store_metadata e m now).cache_data }) := by
      unfold MetadataCache.is_cached
      simp only [hlook]
      rw [if_pos (show later - (e.toSuccessRecord m now).cached_at >
        (c.store_metadata e m now).cache_duration from hgt)]
    constructor
    · rw [hic2]
    · unfold MetadataCache.get_metadata
      simp only [hic2]
      simp

/-- Witness for C6 at a concrete entry, metadata and timestamps. -/
theorem c6_cache_roundtrip_witness :
    (((MetadataCache.init 30).store_metadata emptyEntry emptyMetadata 0).get_metadata
        emptyEntry 0).1 = some emptyMetadata ∧
    (((MetadataCache.init 30).store_metadata emptyEntry emptyMetadata 0).is_cached
        emptyEntry (30 * 86400 + 1)).1 = false ∧
    (((MetadataCache.init 30).store_metadata emptyEntry emptyMetadata 0).get_metadata
        emptyEntry (30 * 86400 + 1)).1 = none :=
  ⟨(c6_cache_roundtrip (MetadataCache.init 30) emptyEntry emptyMetadata 0
      (30 * 86400 + 1) (by norm_num [MetadataCache.init])).1,
   (c6_cache_roundtrip (MetadataCache.init 30) emptyEntry emptyMetadata 0
      (30 * 86400 + 1) (by norm_num [MetadataCache.init])).2
     (by norm_num [MetadataCache.init])⟩

/-! ## Claim C7 (DOI validation in the source clients) -/

/-- C7 (amended): the Crossref client validates the cleaned DOI against the
`10.`-prefix-with-slash pattern and returns null without making any HTTP
request when it fails (e.g. on `"not-a-doi"`); the Semantic Scholar and
OpenAlex clients only check that the cleaned DOI is non-empty, and do make
an HTTP request for a syntactically invalid non-empty DOI. -/
theorem c7_doi_validation_amended (net : String → Option EnrichedMetadata)
    (doi : String) :
    (is_valid_doi (clean_doi doi) = false →
      crossref_query_by_doi net doi = (none, false)) ∧
    ((crossref_query_by_doi net doi).2 = true →
      is_valid_doi (clean_doi doi) = true) ∧
    (¬(doi = "" ∨ strStrip doi = "") → clean_doi doi ≠ "" →
      s2_query_by_doi net doi = (net (clean_doi doi), true)) ∧
    (¬(doi = "" ∨ strStrip doi = "") → clean_doi doi ≠ "" →
      openalex_query_by_doi net doi = (net (clean_doi doi), true)) := by
  refine ⟨?_, ?_, ?_, ?_⟩
  · intro hinv
    unfold crossref_query_by_doi
    split
    · rfl
    · rw [if_pos hinv]
  · intro hreq
    unfold crossref_query_by_doi at hreq
    by_cases h1 : doi = "" ∨ strStrip doi = ""
    · rw [if_pos h1] at hreq
      cases hreq
    · rw [if_neg h1] at hreq
      by_cases h2 : is_valid_doi (clean_doi doi) = false
      · rw [if_pos h2] at hreq
        cases hreq
      · exact Bool.of_not_eq_false h2
  · intro h1 h2
    unfold s2_query_by_doi
    rw [if_neg h1, if_neg h2]
  · intro h1 h2
    unfold openalex_query_by_doi
    rw [if_neg h1, if_neg h2]

/-- Witness for C7's amended statement at `"not-a-doi"`: Crossref rejects it
without a request, while Semantic Scholar and OpenAlex request it. -/
theorem c7_doi_validation_amended_witness :
    (is_valid_doi (clean_doi "not-a-doi") = false ∧
      crossref_query_by_doi (fun _ => none) "not-a-doi" = (none, false)) ∧
    (s2_query_by_doi (fun _ => none) "not-a-doi" = (none, true)) ∧
    (openalex_query_by_doi (fun _ => none) "not-a-doi" = (none, true)) :=
  ⟨⟨by decide,
    (c7_doi_validation_amended (fun _ => none) "not-a-doi").1 (by decide)⟩,
   (c7_doi_validation_amended (fun _ => none) "not-a-doi").2.2.1
     (by decide) (by decide),
   (c7_doi_validation_amended (fun _ => none) "not-a-doi").2.2.2
     (by decide) (by decide)⟩

/-- Counterexample to C7 as stated: the claim demands that every source
client make no HTTP request on the syntactically invalid DOI
`"not-a-doi"`, but the Semantic Scholar client does (its request flag is
true), and so does the OpenAlex client. -/
theorem c7_doi_validation_counterexample :
    is_valid_doi (clean_doi "not-a-doi") = false ∧
    ¬((s2_query_by_doi (fun _ => none) "not-a-doi").2 = false) ∧
    ¬((openalex_query_by_doi (fun _ => none) "not-a-doi").2 = false) := by
  decide

/-! ## Claim C3 (confidence thresholds in the title matchers) -/

theorem crFindGo_some_conf (qt : String) (qa : Option String) :
    ∀ (items : List CrItem) (bs : ℚ) (best : Option CrMatch),
      (∀ r, best = some r → r.confidence > crossref_min_confidence) →
      ∀ r, crFindGo qt qa items bs best = some r →
        r.confidence > crossref_min_confidence := by
  intro items
  induction items with
  | nil =>
    intro bs best hbest r hr
    exact hbest r hr
  | cons item rest ih =>
    intro bs best hbest r hr
    simp only [crFindGo] at hr
    by_cases hc : crScore qt qa item > bs ∧
        crScore qt qa item > crossref_min_confidence
    · rw [if_pos hc] at hr
      refine ih _ _ ?_ r hr
      intro r' hr'
      cases hr'
      exact hc.2
    · rw [if_neg hc] at hr
      exact ih _ _ hbest r hr

theorem crFindGo_none (qt : String) (qa : Option String) :
    ∀ (items : List CrItem) (bs : ℚ),
      (∀ it ∈ items, crScore qt qa it ≤ crossref_min_confidence) →
      crFindGo qt qa items bs none = none := by
  intro items
  induction items with
  | nil => intro bs _; rfl
  | cons item rest ih =>
    intro bs h
    simp only [crFindGo]
    rw [if_neg (by
      rintro ⟨_, h2⟩
      exact absurd h2 (not_lt.mpr (h item (List.mem_cons_self _ _))))]
    exact ih bs (fun it hit => h it (List.mem_cons_of_mem _ hit))

theorem s2FindGo_some_conf (qt : String) (qa : Option String) :
    ∀ (papers : List S2Paper) (bs : ℚ) (best : Option S2Match),
      (∀ r, best = some r → r.confidence > s2_min_confidence) →
      ∀ r, s2FindGo qt qa papers bs best = some r →
        r.confidence > s2_min_confidence := by
  intro papers
  induction papers with
  | nil =>
    intro bs best hbest r hr
    exact hbest r hr
  | cons p rest ih =>
    intro bs best hbest r hr
    simp only [s2FindGo] at hr
    by_cases hc : s2Score qt qa p > bs ∧ s2Score qt qa p > s2_min_confidence
    · rw [if_pos hc] at hr
      refine ih _ _ ?_ r hr
      intro r' hr'
      cases hr'
      exact hc.2
    · rw [if_neg hc] at hr
      exact ih _ _ hbest r hr

theorem s2FindGo_none (qt : String) (qa : Option String) :
    ∀ (papers : List S2Paper) (bs : ℚ),
      (∀ p ∈ papers, s2Score qt qa p ≤ s2_min_confidence) →
      s2FindGo qt qa papers bs none = none := by
  intro papers
  induction papers with
  | nil => intro bs _; rfl
  | cons p rest ih =>
    intro bs h
    simp only [s2FindGo]
    rw [if_neg (by
      rintro ⟨_, h2⟩
      exact absurd h2 (not_lt.mpr (h p (List.mem_cons_self _ _))))]
    exact ih bs (fun q hq => h q (List.mem_cons_of_mem _ hq))

theorem arxFindGo_some_conf (qt : String) (qa : Option String) :
    ∀ (papers : List ArxPaper) (bs : ℚ) (best : Option ArxMatch),
      (∀ r, best = some r → r.confidence > arxiv_min_confidence) →
      ∀ r, arxFindGo qt qa papers bs best = some r →
        r.confidence > arxiv_min_confidence := by
  intro papers
  induction papers with
  | nil =>
    intro bs best hbest r hr
    exact hbest r hr
  | cons p rest ih =>
    intro bs best hbest r hr
    simp only [arxFindGo] at hr
    by_cases hc : arxScore qt qa p > bs ∧ arxScore qt qa p > arxiv_min_confidence
    · rw [if_pos hc] at hr
      refine ih _ _ ?_ r hr
      intro r' hr'
      cases hr'
      exact hc.2
    · rw [if_neg hc] at hr
      exact ih _ _ hbest r hr

theorem arxFindGo_none (qt : String) (qa : Option String) :
    ∀ (papers : List ArxPaper) (bs : ℚ),
      (∀ p ∈ papers, arxScore qt qa p ≤ arxiv_min_confidence) →
      arxFindGo qt qa papers bs none = none := by
  intro papers
  induction papers with
  | nil => intro bs _; rfl
  | cons p rest ih =>
    intro bs h
    simp only [arxFindGo]
    rw [if_neg (by
      rintro ⟨_, h2⟩
      exact absurd h2 (not_lt.mpr (h p (List.mem_cons_self _ _))))]
    exact ih bs (fun q hq => h q (List.mem_cons_of_mem _ hq))

theorem oaFindGo_some_conf (qt : String) (qa : Option String) :
    ∀ (works : List OAWork) (bs : ℚ) (best : Option OAMatch),
      (∀ r, best = some r → r.confidence ≥ openalex_min_confidence) →
      ∀ r, oaFindGo qt qa works bs best = some r →
        r.confidence ≥ openalex_min_confidence := by
  intro works
  induction works with
  | nil =>
    intro bs best hbest r hr
    exact hbest r hr
  | cons w rest ih =>
    intro bs best hbest r hr
    simp only [oaFindGo] at hr
    by_cases hc : oaScore qt qa w > bs ∧ oaScore qt qa w ≥ openalex_min_confidence
    · rw [if_pos hc] at hr
      refine ih _ _ ?_ r hr
      intro r' hr'
      cases hr'
      exact hc.2
    · rw [if_neg hc] at hr
      exact ih _ _ hbest r hr

theorem oaFindGo_none (qt : String) (qa : Option String) :
    ∀ (works : List OAWork) (bs : ℚ),
      (∀ w ∈ works, oaScore qt qa w < openalex_min_confidence) →
      oaFindGo qt qa works bs none = none := by
  intro works
  induction works with
  | nil => intro bs _; rfl
  | cons w rest ih =>
    intro bs h
    simp only [oaFindGo]
    rw [if_neg (by
      rintro ⟨_, h2⟩
      exact absurd h2 (not_le.mpr (h w (List.mem_cons_self _ _))))]
    exact ih bs (fun v hv => h v (List.mem_cons_of_mem _ hv))

/-- C3 (amended): Crossref, Semantic Scholar and ArXiv accept a candidate
only when its score is strictly above the source's threshold (0.7, 0.6,
0.6), and return null when every candidate's score is at most the
threshold; OpenAlex accepts a candidate whose score is greater than or
equal to 0.7 — so a candidate whose weighted confidence equals exactly 0.7
is accepted there — and returns null when every candidate scores strictly
below 0.7. -/
theorem c3_thresholds_amended (qt : String) (qa : Option String)
    (crItems : List CrItem) (s2Papers : List S2Paper)
    (arxPapers : List ArxPaper) (oaWorks : List OAWork) :
    (∀ r, crossref_find_best_title_match qt qa crItems = some r →
       r.confidence > crossref_min_confidence) ∧
    ((∀ it ∈ crItems, crScore qt qa it ≤ crossref_min_confidence) →
       crossref_find_best_title_match qt qa crItems = none) ∧
    (∀ r, s2_find_best_semantic_match qt qa s2Papers = some r →
       r.confidence > s2_min_confidence) ∧
    ((∀ p ∈ s2Papers, s2Score qt qa p ≤ s2_min_confidence) →
       s2_find_best_semantic_match qt qa s2Papers = none) ∧
    (∀ r, arxiv_find_best_match qt qa arxPapers = some r →
       r.confidence > arxiv_min_confidence) ∧
    ((∀ p ∈ arxPapers, arxScore qt qa p ≤ arxiv_min_confidence) →
       arxiv_find_best_match qt qa arxPapers = none) ∧
    (∀ r, openalex_find_best_match qt qa oaWorks = some r →
       r.confidence ≥ openalex_min_confidence) ∧
    ((∀ w ∈ oaWorks, oaScore qt qa w < openalex_min_confidence) →
       openalex_find_best_match qt qa oaWorks = none) :=
  ⟨fun r hr => crFindGo_some_conf qt qa crItems 0 none (by rintro r' ⟨⟩) r hr,
   fun h => crFindGo_none qt qa crItems 0 h,
   fun r hr => s2FindGo_some_conf qt qa s2Papers 0 none (by rintro r' ⟨⟩) r hr,
   fun h => s2FindGo_none qt qa s2Papers 0 h,
   fun r hr => arxFindGo_some_conf qt qa arxPapers 0 none (by rintro r' ⟨⟩) r hr,
   fun h => arxFindGo_none qt qa arxPapers 0 h,
   fun r hr => oaFindGo_some_conf qt qa oaWorks 0 none (by rintro r' ⟨⟩) r hr,
   fun h => oaFindGo_none qt qa oaWorks 0 h⟩

/-- Witness for C3's amended statement: a single low-scoring candidate per
source is rejected and the matchers return null. -/
theorem c3_thresholds_amended_witness :
    crScore "protein folding dynamics" none ⟨[], [], none⟩ ≤ crossref_min_confidence ∧
    crossref_find_best_title_match "protein folding dynamics" none [⟨[], [], none⟩] = none ∧
    s2Score "protein folding dynamics" none ⟨none, []⟩ ≤ s2_min_confidence ∧
    s2_find_best_semantic_match "protein folding dynamics" none [⟨none, []⟩] = none ∧
    arxScore "protein folding dynamics" none ⟨none, []⟩ ≤ arxiv_min_confidence ∧
    arxiv_find_best_match "protein folding dynamics" none [⟨none, []⟩] = none ∧
    oaScore "protein folding dynamics" none ⟨none, none, []⟩ < openalex_min_confidence ∧
    openalex_find_best_match "protein folding dynamics" none [⟨none, none, []⟩] = none := by
  have hcr : ∀ it ∈ [(⟨[], [], none⟩ : CrItem)],
      crScore "protein folding dynamics" none it ≤ crossref_min_confidence := by
    intro it hit
    rw [List.mem_singleton] at hit
    subst hit
    show (0:ℚ) + 0 + 0 ≤ 7/10
    norm_num
  have hs2 : ∀ p ∈ [(⟨none, []⟩ : S2Paper)],
      s2Score "protein folding dynamics" none p ≤ s2_min_confidence := by
    intro p hp
    rw [List.mem_singleton] at hp
    subst hp
    show (0:ℚ) + 0 ≤ 6/10
    norm_num
  have harx : ∀ p ∈ [(⟨none, []⟩ : ArxPaper)],
      arxScore "protein folding dynamics" none p ≤ arxiv_min_confidence := by
    intro p hp
    rw [List.mem_singleton] at hp
    subst hp
    show (0:ℚ) + 0 ≤ 6/10
    norm_num
  have hoa : ∀ w ∈ [(⟨none, none, []⟩ : OAWork)],
      oaScore "protein folding dynamics" none w < openalex_min_confidence := by
    intro w hw
    rw [List.mem_singleton] at hw
    subst hw
    show (if oaWorkTitle ⟨none, none, []⟩ ≠ "" then
        calculate_text_similarity (clean_title_for_search "protein folding dynamics")
          (clean_title_for_search (oaWorkTitle ⟨none, none, []⟩)) true * (7/10)
      else 0) + 0 < 7/10
    rw [if_neg (by decide)]
    norm_num
  have happ := c3_thresholds_amended "protein folding dynamics" none
    [⟨[], [], none⟩] [⟨none, []⟩] [⟨none, []⟩] [⟨none, none, []⟩]
  exact ⟨hcr _ (List.mem_singleton.mpr rfl),
    happ.2.1 hcr,
    hs2 _ (List.mem_singleton.mpr rfl),
    happ.2.2.2.1 hs2,
    harx _ (List.mem_singleton.mpr rfl),
    happ.2.2.2.2.2.1 harx,
    hoa _ (List.mem_singleton.mpr rfl),
    happ.2.2.2.2.2.2.2 hoa⟩

/-- Counterexample to C3 as stated: an OpenAlex candidate whose weighted
score is exactly the 0.7 threshold — so it does not exceed it — is
nevertheless accepted by `_find_best_match` (the source compares with
`>=`). -/
theorem c3_thresholds_counterexample :
    oaScore "protein folding dynamics" none
        ⟨some "protein folding dynamics", none, []⟩ = openalex_min_confidence ∧
    ¬(oaScore "protein folding dynamics" none
        ⟨some "protein folding dynamics", none, []⟩ > openalex_min_confidence) ∧
    openalex_find_best_match "protein folding dynamics" none
        [⟨some "protein folding dynamics", none, []⟩] =
      some ⟨⟨some "protein folding dynamics", none, []⟩, 7/10⟩ := by
  have hclean : clean_title_for_search "protein folding dynamics" =
      "protein folding dynamics" := by decide
  have hsim : calculate_text_similarity
      (clean_title_for_search "protein folding dynamics")
      (clean_title_for_search "protein folding dynamics") true = 1 := by
    rw [hclean]
    exact sim_self _ (by decide)
  have hscore : oaScore "protein folding dynamics" none
      ⟨some "protein folding dynamics", none, []⟩ = 7/10 := by
    show (if oaWorkTitle ⟨some "protein folding dynamics", none, []⟩ ≠ "" then
        calculate_text_similarity (clean_title_for_search "protein folding dynamics")
          (clean_title_for_search
            (oaWorkTitle ⟨some "protein folding dynamics", none, []⟩)) true * (7/10)
      else 0) + 0 = 7/10
    rw [show oaWorkTitle ⟨some "protein folding dynamics", none, []⟩ =
      "protein folding dynamics" from rfl]
    rw [if_pos (by decide), hsim]
    norm_num
  refine ⟨hscore, by rw [hscore]; exact lt_irrefl _, ?_⟩
  show oaFindGo "protein folding dynamics" none
    [⟨some "protein folding dynamics", none, []⟩] 0 none = _
  simp only [oaFindGo]
  rw [if_pos (show oaScore "protein folding dynamics" none
      ⟨some "protein folding dynamics", none, []⟩ > 0 ∧
    oaScore "protein folding dynamics" none
      ⟨some "protein folding dynamics", none, []⟩ ≥ openalex_min_confidence from
    ⟨by rw [hscore]; norm_num,
     by rw [hscore]; norm_num [openalex_min_confidence]⟩)]
  rw [hscore]

/-! ## Helper lemmas for the DOI chain (`_enrich_by_doi`) -/

theorem doiStepS2_skip (o : Oracles) (en : EnabledClients) (c : ApiFailureCounts)
    (doi : String) (h : ¬ c.semantic_scholar < max_consecutive_failures) :
    doiStepS2 o en c doi = (none, c, []) := by
  unfold doiStepS2
  rw [if_neg (fun hc => h hc.2)]

theorem doiStepS2_success (o : Oracles) (en : EnabledClients)
    (c : ApiFailureCounts) (doi : String) (m : EnrichedMetadata)
    (hen : en.semantic_scholar = true)
    (h : c.semantic_scholar < max_consecutive_failures)
    (hm : o.s2Doi doi = .returns (some m)) :
    doiStepS2 o en c doi =
      (some m, { c with semantic_scholar := 0 }, [ApiSource.semanticScholar]) := by
  unfold doiStepS2
  rw [if_pos ⟨hen, h⟩, hm]

theorem doiStepS2_fail (o : Oracles) (en : EnabledClients)
    (c : ApiFailureCounts) (doi : String)
    (hen : en.semantic_scholar = true)
    (h : c.semantic_scholar < max_consecutive_failures)
    (hm : o.s2Doi doi = .returns none ∨ o.s2Doi doi = .raises) :
    doiStepS2 o en c doi =
      (none, { c with semantic_scholar := c.semantic_scholar + 1 },
       [ApiSource.semanticScholar]) := by
  unfold doiStepS2
  rw [if_pos ⟨hen, h⟩]
  rcases hm with hm | hm <;> rw [hm]

theorem doiStepS2_trace_cases (o : Oracles) (en : EnabledClients)
    (c : ApiFailureCounts) (doi : String) :
    (doiStepS2 o en c doi).2.2 = [] ∨
    (doiStepS2 o en c doi).2.2 = [ApiSource.semanticScholar] := by
  unfold doiStepS2
  split
  · rcases h : o.s2Doi doi with _ | (_ | m) <;> simp [h]
  · simp

theorem doiStepS2_counts_other (o : Oracles) (en : EnabledClients)
    (c : ApiFailureCounts) (doi : String) :
    (doiStepS2 o en c doi).2.1.crossref = c.crossref ∧
    (doiStepS2 o en c doi).2.1.openalex = c.openalex := by
  unfold doiStepS2
  split
  · rcases h : o.s2Doi doi with _ | (_ | m) <;> simp [h]
  · simp

theorem doiStepS2_not_mem (o : Oracles) (en : EnabledClients)
    (c : ApiFailureCounts) (doi : String)
    (h : ApiSource.semanticScholar ∉ (doiStepS2 o en c doi).2.2) :
    doiStepS2 o en c doi = (none, c, []) := by
  unfold doiStepS2 at h ⊢
  by_cases hc : en.semantic_scholar = true ∧
      c.semantic_scholar < max_consecutive_failures
  · rw [if_pos hc] at h
    rcases hx : o.s2Doi doi with _ | (_ | m) <;> rw [hx] at h <;> simp at h
  · rw [if_neg hc]

theorem doiStepS2_mem_success (o : Oracles) (en : EnabledClients)
    (c : ApiFailureCounts) (doi : String) (m : EnrichedMetadata)
    (h : ApiSource.semanticScholar ∈ (doiStepS2 o en c doi).2.2)
    (hm : o.s2Doi doi = .returns (some m)) :
    (doiStepS2 o en c doi).1 = some m ∧
    (doiStepS2 o en c doi).2.1.semantic_scholar = 0 := by
  unfold doiStepS2 at h ⊢
  by_cases hc : en.semantic_scholar = true ∧
      c.semantic_scholar < max_consecutive_failures
  · rw [if_pos hc, hm]
    exact ⟨rfl, rfl⟩
  · rw [if_neg hc] at h
    simp at h

theorem doiStepS2_mem_fail (o : Oracles) (en : EnabledClients)
    (c : ApiFailureCounts) (doi : String)
    (h : ApiSource.semanticScholar ∈ (doiStepS2 o en c doi).2.2)
    (hm : o.s2Doi doi = .returns none ∨ o.s2Doi doi = .raises) :
    (doiStepS2 o en c doi).2.1.semantic_scholar = c.semantic_scholar + 1 := by
  unfold doiStepS2 at h ⊢
  by_cases hc : en.semantic_scholar = true ∧
      c.semantic_scholar < max_consecutive_failures
  · rw [if_pos hc]
    rcases hm with hm | hm <;> rw [hm]
  · rw [if_neg hc] at h
    simp at h

theorem doiStepOA_skip (o : Oracles) (en : EnabledClients) (c : ApiFailureCounts)
    (doi : String) (h : ¬ c.openalex < max_consecutive_failures) :
    doiStepOA o en c doi = doiStepS2 o en c doi := by
  unfold doiStepOA
  rw [if_neg (fun hc => h hc.2)]

theorem doiStepOA_success (o : Oracles) (en : EnabledClients)
    (c : ApiFailureCounts) (doi : String) (m : EnrichedMetadata)
    (hen : en.openalex = true) (h : c.openalex < max_consecutive_failures)
    (hm : o.openalexDoi doi = .returns (some m)) :
    doiStepOA o en c doi =
      (some m, { c with openalex := 0 }, [ApiSource.openalex]) := by
  unfold doiStepOA
  rw [if_pos ⟨hen, h⟩, hm]

theorem doiStepOA_fail (o : Oracles) (en : EnabledClients)
    (c : ApiFailureCounts) (doi : String)
    (hen : en.openalex = true) (h : c.openalex < max_consecutive_failures)
    (hm : o.openalexDoi doi = .returns none ∨ o.openalexDoi doi = .raises) :
    doiStepOA o en c doi =
      ((doiStepS2 o en { c with openalex := c.openalex + 1 } doi).1,
       (doiStepS2 o en { c with openalex := c.openalex + 1 } doi).2.1,
       ApiSource.openalex ::
         (doiStepS2 o en { c with openalex := c.openalex + 1 } doi).2.2) := by
  unfold doiStepOA
  rw [if_pos ⟨hen, h⟩]
  rcases hm with hm | hm <;> rw [hm]

theorem doiStepOA_trace_cases (o : Oracles) (en : EnabledClients)
    (c : ApiFailureCounts) (doi : String) :
    (doiStepOA o en c doi).2.2 = [] ∨
    (doiStepOA o en c doi).2.2 = [ApiSource.openalex] ∨
    (doiStepOA o en c doi).2.2 = [ApiSource.openalex, ApiSource.semanticScholar] ∨
    (doiStepOA o en c doi).2.2 = [ApiSource.semanticScholar] := by
  unfold doiStepOA
  split
  · rcases h : o.openalexDoi doi with _ | (_ | m) <;> simp only [h]
    · rcases doiStepS2_trace_cases o en { c with openalex := c.openalex + 1 } doi
        with h2 | h2 <;> simp [h2]
    · rcases doiStepS2_trace_cases o en { c with openalex := c.openalex + 1 } doi
        with h2 | h2 <;> simp [h2]
    · simp
  · rcases doiStepS2_trace_cases o en c doi with h2 | h2 <;> simp [h2]

theorem doiStepOA_counts_cr (o : Oracles) (en : EnabledClients)
    (c : ApiFailureCounts) (doi : String) :
    (doiStepOA o en c doi).2.1.crossref = c.crossref := by
  unfold doiStepOA
  split
  · rcases h : o.openalexDoi doi with _ | (_ | m) <;> simp only [h] <;>
      exact (doiStepS2_counts_other o en _ doi).1
  · exact (doiStepS2_counts_other o en c doi).1

theorem doiStepOA_mem_success (o : Oracles) (en : EnabledClients)
    (c : ApiFailureCounts) (doi : String) (m : EnrichedMetadata)
    (h : ApiSource.openalex ∈ (doiStepOA o en c doi).2.2)
    (hm : o.openalexDoi doi = .returns (some m)) :
    (doiStepOA o en c doi).1 = some m ∧
    (doiStepOA o en c doi).2.1.openalex = 0 := by
  unfold doiStepOA at h ⊢
  by_cases hc : en.openalex = true ∧ c.openalex < max_consecutive_failures
  · rw [if_pos hc, hm]
    exact ⟨rfl, rfl⟩
  · rw [if_neg hc] at h
    rcases doiStepS2_trace_cases o en c doi with h2 | h2 <;> rw [h2] at h <;>
      simp at h

theorem doiStepOA_mem_fail (o : Oracles) (en : EnabledClients)
    (c : ApiFailureCounts) (doi : String)
    (h : ApiSource.openalex ∈ (doiStepOA o en c doi).2.2)
    (hm : o.openalexDoi doi = .returns none ∨ o.openalexDoi doi = .raises) :
    (doiStepOA o en c doi).2.1.openalex = c.openalex + 1 := by
  unfold doiStepOA at h ⊢
  by_cases hc : en.openalex = true ∧ c.openalex < max_consecutive_failures
  · rw [if_pos hc]
    rcases hm with hm | hm <;> rw [hm] <;>
      exact (doiStepS2_counts_other o en _ doi).2
  · rw [if_neg hc] at h
    rcases doiStepS2_trace_cases o en c doi with h2 | h2 <;> rw [h2] at h <;>
      simp at h

theorem doiStepOA_memS2_success (o : Oracles) (en : EnabledClients)
    (c : ApiFailureCounts) (doi : String) (m : EnrichedMetadata)
    (h : ApiSource.semanticScholar ∈ (doiStepOA o en c doi).2.2)
    (hm : o.s2Doi doi = .returns (some m)) :
    (doiStepOA o en c doi).1 = some m ∧
    (doiStepOA o en c doi).2.1.semantic_scholar = 0 := by
  unfold doiStepOA at h ⊢
  by_cases hc : en.openalex = true ∧ c.openalex < max_consecutive_failures
  · rw [if_pos hc] at h ⊢
    rcases hx : o.openalexDoi doi with _ | (_ | m2) <;> rw [hx] at h
    · have h' : ApiSource.semanticScholar ∈
          (doiStepS2 o en { c with openalex := c.openalex + 1 } doi).2.2 := by
        simpa using h
      exact doiStepS2_mem_success o en _ doi m h' hm
    · have h' : ApiSource.semanticScholar ∈
          (doiStepS2 o en { c with openalex := c.openalex + 1 } doi).2.2 := by
        simpa using h
      exact doiStepS2_mem_success o en _ doi m h' hm
    · simp at h
  · rw [if_neg hc] at h ⊢
    exact doiStepS2_mem_success o en c doi m h hm

theorem doiStepOA_memS2_fail (o : Oracles) (en : EnabledClients)
    (c : ApiFailureCounts) (doi : String)
    (h : ApiSource.semanticScholar ∈ (doiStepOA o en c doi).2.2)
    (hm : o.s2Doi doi = .returns none ∨ o.s2Doi doi = .raises) :
    (doiStepOA o en c doi).2.1.semantic_scholar = c.semantic_scholar + 1 := by
  unfold doiStepOA at h ⊢
  by_cases hc : en.openalex = true ∧ c.openalex < max_consecutive_failures
  · rw [if_pos hc] at h ⊢
    rcases hx : o.openalexDoi doi with _ | (_ | m2) <;> rw [hx] at h
    · have h' : ApiSource.semanticScholar ∈
          (doiStepS2 o en { c with openalex := c.openalex + 1 } doi).2.2 := by
        simpa using h
      exact doiStepS2_mem_fail o en _ doi h' hm
    · have h' : ApiSource.semanticScholar ∈
          (doiStepS2 o en { c with openalex := c.openalex + 1 } doi).2.2 := by
        simpa using h
      exact doiStepS2_mem_fail o en _ doi h' hm
    · simp at h
  · rw [if_neg hc] at h ⊢
    exact doiStepS2_mem_fail o en c doi h hm

theorem doiStepOA_notmem_oa (o : Oracles) (en : EnabledClients)
    (c : ApiFailureCounts) (doi : String)
    (h : ApiSource.openalex ∉ (doiStepOA o en c doi).2.2) :
    (doiStepOA o en c doi).2.1.openalex = c.openalex := by
  unfold doiStepOA at h ⊢
  by_cases hc : en.openalex = true ∧ c.openalex < max_consecutive_failures
  · rw [if_pos hc] at h
    rcases hx : o.openalexDoi doi with _ | (_ | m2) <;> rw [hx] at h <;> simp at h
  · rw [if_neg hc]
    exact (doiStepS2_counts_other o en c doi).2

theorem doiStepOA_notmem_s2 (o : Oracles) (en : EnabledClients)
    (c : ApiFailureCounts) (doi : String)
    (h : ApiSource.semanticScholar ∉ (doiStepOA o en c doi).2.2) :
    (doiStepOA o en c doi).2.1.semantic_scholar = c.semantic_scholar := by
  unfold doiStepOA at h ⊢
  by_cases hc : en.openalex = true ∧ c.openalex < max_consecutive_failures
  · rw [if_pos hc] at h ⊢
    rcases hx : o.openalexDoi doi with _ | (_ | m2) <;> rw [hx] at h <;>
      first
        | rfl
        | (have h' : ApiSource.semanticScholar ∉
              (doiStepS2 o en { c with openalex := c.openalex + 1 } doi).2.2 := by
            intro hmem
            exact h (List.mem_cons.mpr (Or.inr hmem))
           show (doiStepS2 o en
               { c with openalex := c.openalex + 1 } doi).2.1.semantic_scholar
             = c.semantic_scholar
           rw [doiStepS2_not_mem o en _ doi h'])
  · rw [if_neg hc] at h ⊢
    rw [doiStepS2_not_mem o en c doi h]

theorem doiStepOA_head_queried (o : Oracles) (en : EnabledClients)
    (c : ApiFailureCounts) (doi : String)
    (hen : en.openalex = true) (h : c.openalex < max_consecutive_failures) :
    (doiStepOA o en c doi).2.2.head? = some ApiSource.openalex := by
  unfold doiStepOA
  rw [if_pos ⟨hen, h⟩]
  rcases o.openalexDoi doi with _ | (_ | m2) <;> rfl

theorem doiStepOA_s2_tripped (o : Oracles) (en : EnabledClients)
    (c : ApiFailureCounts) (doi : String)
    (h : ¬ c.semantic_scholar < max_consecutive_failures) :
    ApiSource.semanticScholar ∉ (doiStepOA o en c doi).2.2 := by
  unfold doiStepOA
  by_cases hc : en.openalex = true ∧ c.openalex < max_consecutive_failures
  · rw [if_pos hc]
    rcases o.openalexDoi doi with _ | (_ | m2) <;>
      first
        | (show ApiSource.semanticScholar ∉ [ApiSource.openalex]
           decide)
        | (show ApiSource.semanticScholar ∉ ApiSource.openalex ::
            (doiStepS2 o en { c with openalex := c.openalex + 1 } doi).2.2
           rw [doiStepS2_skip o en { c with openalex := c.openalex + 1 } doi h]
           simp)
  · rw [if_neg hc]
    rw [doiStepS2_skip o en c doi h]
    simp

theorem enrich_by_doi_skip (o : Oracles) (en : EnabledClients)
    (c : ApiFailureCounts) (doi : String)
    (h : ¬ c.crossref < max_consecutive_failures) :
    enrich_by_doi o en c doi = doiStepOA o en c doi := by
  unfold enrich_by_doi
  rw [if_neg (fun hc => h hc.2)]

theorem enrich_by_doi_success (o : Oracles) (en : EnabledClients)
    (c : ApiFailureCounts) (doi : String) (m : EnrichedMetadata)
    (hen : en.crossref = true) (h : c.crossref < max_consecutive_failures)
    (hm : o.crossrefDoi doi = .returns (some m)) :
    enrich_by_doi o en c doi =
      (some m, { c with crossref := 0 }, [ApiSource.crossref]) := by
  unfold enrich_by_doi
  rw [if_pos ⟨hen, h⟩, hm]

theorem enrich_by_doi_fail (o : Oracles) (en : EnabledClients)
    (c : ApiFailureCounts) (doi : String)
    (hen : en.crossref = true) (h : c.crossref < max_consecutive_failures)
    (hm : o.crossrefDoi doi = .returns none ∨ o.crossrefDoi doi = .raises) :
    enrich_by_doi o en c doi =
      ((doiStepOA o en { c with crossref := c.crossref + 1 } doi).1,
       (doiStepOA o en { c with crossref := c.crossref + 1 } doi).2.1,
       ApiSource.crossref ::
         (doiStepOA o en { c with crossref := c.crossref + 1 } doi).2.2) := by
  unfold enrich_by_doi
  rw [if_pos ⟨hen, h⟩]
  rcases hm with hm | hm <;> rw [hm]

/-- C2: in `_enrich_by_doi` the query trace is a subsequence of the fixed
order Crossref, OpenAlex, Semantic Scholar; a source whose consecutive
failure counter has reached 5 is absent from the trace (never queried); an
untripped Crossref is queried, and its success is returned immediately with
its counter reset while a null result or exception increments its counter;
for the later sources, being queried with a success resets that counter and
its result is the overall result, being queried with a failure increments
it, and an unqueried source keeps its counter; once Crossref has 5 or more
consecutive failures, an untripped OpenAlex is the first source queried. -/
theorem c2_doi_circuit_breaker (o : Oracles) (en : EnabledClients)
    (c : ApiFailureCounts) (doi : String)
    (hcr : en.crossref = true) (hoa : en.openalex = true) :
    (enrich_by_doi o en c doi).2.2.Sublist
      [ApiSource.crossref, ApiSource.openalex, ApiSource.semanticScholar] ∧
    (max_consecutive_failures ≤ c.crossref →
      ApiSource.crossref ∉ (enrich_by_doi o en c doi).2.2) ∧
    (max_consecutive_failures ≤ c.openalex →
      ApiSource.openalex ∉ (enrich_by_doi o en c doi).2.2) ∧
    (max_consecutive_failures ≤ c.semantic_scholar →
      ApiSource.semanticScholar ∉ (enrich_by_doi o en c doi).2.2) ∧
    (c.crossref < max_consecutive_failures →
      ApiSource.crossref ∈ (enrich_by_doi o en c doi).2.2) ∧
    (∀ m, c.crossref < max_consecutive_failures →
      o.crossrefDoi doi = .returns (some m) →
      enrich_by_doi o en c doi =
        (some m, { c with crossref := 0 }, [ApiSource.crossref])) ∧
    (c.crossref < max_consecutive_failures →
      (o.crossrefDoi doi = .returns none ∨ o.crossrefDoi doi = .raises) →
      (enrich_by_doi o en c doi).2.1.crossref = c.crossref + 1) ∧
    (∀ m, ApiSource.openalex ∈ (enrich_by_doi o en c doi).2.2 →
      o.openalexDoi doi = .returns (some m) →
      (enrich_by_doi o en c doi).1 = some m ∧
      (enrich_by_doi o en c doi).2.1.openalex = 0) ∧
    (ApiSource.openalex ∈ (enrich_by_doi o en c doi).2.2 →
      (o.openalexDoi doi = .returns none ∨ o.openalexDoi doi = .raises) →
      (enrich_by_doi o en c doi).2.1.openalex = c.openalex + 1) ∧
    (∀ m, ApiSource.semanticScholar ∈ (enrich_by_doi o en c doi).2.2 →
      o.s2Doi doi = .returns (some m) →
      (enrich_by_doi o en c doi).1 = some m ∧
      (enrich_by_doi o en c doi).2.1.semantic_scholar = 0) ∧
    (ApiSource.semanticScholar ∈ (enrich_by_doi o en c doi).2.2 →
      (o.s2Doi doi = .returns none ∨ o.s2Doi doi = .raises) →
      (enrich_by_doi o en c doi).2.1.semantic_scholar =
        c.semantic_scholar + 1) ∧
    (ApiSource.crossref ∉ (enrich_by_doi o en c doi).2.2 →
      (enrich_by_doi o en c doi).2.1.crossref = c.crossref) ∧
    (ApiSource.openalex ∉ (enrich_by_doi o en c doi).2.2 →
      (enrich_by_doi o en c doi).2.1.openalex = c.openalex) ∧
    (ApiSource.semanticScholar ∉ (enrich_by_doi o en c doi).2.2 →
      (enrich_by_doi o en c doi).2.1.semantic_scholar = c.semantic_scholar) ∧
    (max_consecutive_failures ≤ c.crossref →
      c.openalex < max_consecutive_failures →
      (enrich_by_doi o en c doi).2.2.head? = some ApiSource.openalex) := by
  by_cases hccr : c.crossref < max_consecutive_failures
  · by_cases hsucc : ∃ m, o.crossrefDoi doi = .returns (some m)
    · obtain ⟨m1, hx⟩ := hsucc
      have heq := enrich_by_doi_success o en c doi m1 hcr hccr hx
      rw [heq]
      refine ⟨?_, ?_, ?_, ?_, ?_, ?_, ?_, ?_, ?_, ?_, ?_, ?_, ?_, ?_, ?_⟩
      · show List.Sublist [ApiSource.crossref]
          [ApiSource.crossref, ApiSource.openalex, ApiSource.semanticScholar]
        decide
      · intro hge
        exact absurd hccr (not_lt.mpr hge)
      · intro _
        show ApiSource.openalex ∉ [ApiSource.crossref]
        decide
      · intro _
        show ApiSource.semanticScholar ∉ [ApiSource.crossref]
        decide
      · intro _
        show ApiSource.crossref ∈ [ApiSource.crossref]
        decide
      · intro m _ hm
        rw [hx] at hm
        simp only [ApiResult.returns.injEq, Option.some.injEq] at hm
        subst hm
        rfl
      · intro _ hm
        rcases hm with hm | hm
        · rw [hx] at hm
          simp at hm
        · rw [hx] at hm
          exact ApiResult.noConfusion hm
      · intro m hmem _
        exact absurd (show ApiSource.openalex ∈ [ApiSource.crossref] from hmem)
          (by decide)
      · intro hmem _
        exact absurd (show ApiSource.openalex ∈ [ApiSource.crossref] from hmem)
          (by decide)
      · intro m hmem _
        exact absurd
          (show ApiSource.semanticScholar ∈ [ApiSource.crossref] from hmem)
          (by decide)
      · intro hmem _
        exact absurd
          (show ApiSource.semanticScholar ∈ [ApiSource.crossref] from hmem)
          (by decide)
      · intro hnot
        exact absurd (show ApiSource.crossref ∈ [ApiSource.crossref] by decide)
          hnot
      · intro _
        rfl
      · intro _
        rfl
      · intro hge _
        exact absurd hccr (not_lt.mpr hge)
    · have hfail : o.crossrefDoi doi = .returns none ∨
          o.crossrefDoi doi = .raises := by
        rcases hy : o.crossrefDoi doi with _ | (_ | m)
        · exact Or.inr rfl
        · exact Or.inl rfl
        · exact absurd ⟨m, hy⟩ hsucc
      have heq := enrich_by_doi_fail o en c doi hcr hccr hfail
      rw [heq]
      refine ⟨?_, ?_, ?_, ?_, ?_, ?_, ?_, ?_, ?_, ?_, ?_, ?_, ?_, ?_, ?_⟩
      · show (ApiSource.crossref ::
            (doiStepOA o en { c with crossref := c.crossref + 1 } doi).2.2).Sublist
          [ApiSource.crossref, ApiSource.openalex, ApiSource.semanticScholar]
        refine List.cons_sublist_cons.mpr ?_
        rcases doiStepOA_trace_cases o en { c with crossref := c.crossref + 1 }
            doi with h2 | h2 | h2 | h2 <;> rw [h2] <;> decide
      · intro hge
        exact absurd hccr (not_lt.mpr hge)
      · intro hge hmem
        have hmem0 : ApiSource.openalex ∈ ApiSource.crossref ::
            (doiStepOA o en { c with crossref := c.crossref + 1 } doi).2.2 := hmem
        rcases List.mem_cons.mp hmem0 with hh | hh
        · exact absurd hh (by decide)
        · rw [doiStepOA_skip o en { c with crossref := c.crossref + 1 } doi
            (not_lt.mpr hge)] at hh
          rcases doiStepS2_trace_cases o en { c with crossref := c.crossref + 1 }
              doi with h2 | h2 <;> rw [h2] at hh <;> exact absurd hh (by decide)
      · intro hge hmem
        have hmem0 : ApiSource.semanticScholar ∈ ApiSource.crossref ::
            (doiStepOA o en { c with crossref := c.crossref + 1 } doi).2.2 := hmem
        rcases List.mem_cons.mp hmem0 with hh | hh
        · exact absurd hh (by decide)
        · exact doiStepOA_s2_tripped o en { c with crossref := c.crossref + 1 }
            doi (not_lt.mpr hge) hh
      · intro _
        show ApiSource.crossref ∈ ApiSource.crossref ::
          (doiStepOA o en { c with crossref := c.crossref + 1 } doi).2.2
        exact List.mem_cons_self _ _
      · intro m _ hm
        rcases hfail with hf | hf
        · rw [hf] at hm
          simp at hm
        · rw [hf] at hm
          exact ApiResult.noConfusion hm
      · intro _ _
        show (doiStepOA o en { c with crossref := c.crossref + 1 } doi).2.1.crossref
          = c.crossref + 1
        exact doiStepOA_counts_cr o en { c with crossref := c.crossref + 1 } doi
      · intro m hmem hm
        have hmem0 : ApiSource.openalex ∈ ApiSource.crossref ::
            (doiStepOA o en { c with crossref := c.crossref + 1 } doi).2.2 := hmem
        have hmem2 : ApiSource.openalex ∈
            (doiStepOA o en { c with crossref := c.crossref + 1 } doi).2.2 := by
          rcases List.mem_cons.mp hmem0 with hh | hh
          · exact absurd hh (by decide)
          · exact hh
        exact doiStepOA_mem_success o en { c with crossref := c.crossref + 1 }
          doi m hmem2 hm
      · intro hmem hm
        have hmem0 : ApiSource.openalex ∈ ApiSource.crossref ::
            (doiStepOA o en { c with crossref := c.crossref + 1 } doi).2.2 := hmem
        have hmem2 : ApiSource.openalex ∈
            (doiStepOA o en { c with crossref := c.crossref + 1 } doi).2.2 := by
          rcases List.mem_cons.mp hmem0 with hh | hh
          · exact absurd hh (by decide)
          · exact hh
        show (doiStepOA o en { c with crossref := c.crossref + 1 } doi).2.1.openalex
          = c.openalex + 1
        exact doiStepOA_mem_fail o en { c with crossref := c.crossref + 1 } doi
          hmem2 hm
      · intro m hmem hm
        have hmem0 : ApiSource.semanticScholar ∈ ApiSource.crossref ::
            (doiStepOA o en { c with crossref := c.crossref + 1 } doi).2.2 := hmem
        have hmem2 : ApiSource.semanticScholar ∈
            (doiStepOA o en { c with crossref := c.crossref + 1 } doi).2.2 := by
          rcases List.mem_cons.mp hmem0 with hh | hh
          · exact absurd hh (by decide)
          · exact hh
        exact doiStepOA_memS2_success o en { c with crossref := c.crossref + 1 }
          doi m hmem2 hm
      · intro hmem hm
        have hmem0 : ApiSource.semanticScholar ∈ ApiSource.crossref ::
            (doiStepOA o en { c with crossref := c.crossref + 1 } doi).2.2 := hmem
        have hmem2 : ApiSource.semanticScholar ∈
            (doiStepOA o en { c with crossref := c.crossref + 1 } doi).2.2 := by
          rcases List.mem_cons.mp hmem0 with hh | hh
          · exact absurd hh (by decide)
          · exact hh
        show (doiStepOA o en
            { c with crossref := c.crossref + 1 } doi).2.1.semantic_scholar
          = c.semantic_scholar + 1
        exact doiStepOA_memS2_fail o en { c with crossref := c.crossref + 1 } doi
          hmem2 hm
      · intro hnot
        exact absurd (show ApiSource.crossref ∈ ApiSource.crossref ::
            (doiStepOA o en { c with crossref := c.crossref + 1 } doi).2.2 from
          List.mem_cons_self _ _) hnot
      · intro hnot
        have hnot2 : ApiSource.openalex ∉
            (doiStepOA o en { c with crossref := c.crossref + 1 } doi).2.2 := by
          intro hh
          exact hnot (List.mem_cons_of_mem _ hh)
        show (doiStepOA o en { c with crossref := c.crossref + 1 } doi).2.1.openalex
          = c.openalex
        exact doiStepOA_notmem_oa o en { c with crossref := c.crossref + 1 } doi
          hnot2
      · intro hnot
        have hnot2 : ApiSource.semanticScholar ∉
            (doiStepOA o en { c with crossref := c.crossref + 1 } doi).2.2 := by
          intro hh
          exact hnot (List.mem_cons_of_mem _ hh)
        show (doiStepOA o en
            { c with crossref := c.crossref + 1 } doi).2.1.semantic_scholar
          = c.semantic_scholar
        exact doiStepOA_notmem_s2 o en { c with crossref := c.crossref + 1 } doi
          hnot2
      · intro hge _
        exact absurd hccr (not_lt.mpr hge)
  · rw [enrich_by_doi_skip o en c doi hccr]
    refine ⟨?_, ?_, ?_, ?_, ?_, ?_, ?_, ?_, ?_, ?_, ?_, ?_, ?_, ?_, ?_⟩
    · rcases doiStepOA_trace_cases o en c doi with h2 | h2 | h2 | h2 <;>
        rw [h2] <;> decide
    · intro _
      rcases doiStepOA_trace_cases o en c doi with h2 | h2 | h2 | h2 <;>
        rw [h2] <;> decide
    · intro hge hmem
      rw [doiStepOA_skip o en c doi (not_lt.mpr hge)] at hmem
      rcases doiStepS2_trace_cases o en c doi with h2 | h2 <;>
        rw [h2] at hmem <;> exact absurd hmem (by decide)
    · intro hge hmem
      exact doiStepOA_s2_tripped o en c doi (not_lt.mpr hge) hmem
    · intro hlt
      exact absurd hlt hccr
    · intro m hlt _
      exact absurd hlt hccr
    · intro hlt _
      exact absurd hlt hccr
    · intro m hmem hm
      exact doiStepOA_mem_success o en c doi m hmem hm
    · intro hmem hm
      exact doiStepOA_mem_fail o en c doi hmem hm
    · intro m hmem hm
      exact doiStepOA_memS2_success o en c doi m hmem hm
    · intro hmem hm
      exact doiStepOA_memS2_fail o en c doi hmem hm
    · intro _
      exact doiStepOA_counts_cr o en c doi
    · intro hnot
      exact doiStepOA_notmem_oa o en c doi hnot
    · intro hnot
      exact doiStepOA_notmem_s2 o en c doi hnot
    · intro _ hlt
      exact doiStepOA_head_queried o en c doi hoa hlt

/-- Witness for C2 at a concrete oracle and counter state: with all clients
enabled and five consecutive Crossref failures recorded, the next DOI lookup
queries OpenAlex first and never queries Crossref. -/
theorem c2_doi_circuit_breaker_witness :
    allClients.crossref = true ∧
    max_consecutive_failures ≤ c2Counts.crossref ∧
    c2Counts.openalex < max_consecutive_failures ∧
    (enrich_by_doi c2Oracle allClients c2Counts "10.1234/x").2.2.head? =
      some ApiSource.openalex ∧
    ApiSource.crossref ∉
      (enrich_by_doi c2Oracle allClients c2Counts "10.1234/x").2.2 :=
  ⟨rfl, by decide, by decide,
   (c2_doi_circuit_breaker c2Oracle allClients c2Counts "10.1234/x"
      rfl rfl).2.2.2.2.2.2.2.2.2.2.2.2.2.2 (by decide) (by decide),
   (c2_doi_circuit_breaker c2Oracle allClients c2Counts "10.1234/x"
      rfl rfl).2.1 (by decide)⟩

/-! ## Claim C9 (the URL fallback never fails) -/

theorem enrich_by_url_isSome (o : Oracles) (en : EnabledClients)
    (c : ApiFailureCounts) (e : BibEntry) (h : optTruthy e.url = true) :
    (enrich_by_url o en c e).1.isSome = true := by
  unfold enrich_by_url
  cases hu : e.url with
  | none =>
    rw [hu] at h
    simp [optTruthy] at h
  | some u =>
    have hne : u ≠ "" := by
      rw [hu] at h
      simpa [optTruthy] using h
    simp only [hu]
    rw [if_neg hne]
    split <;> rfl

theorem entryUrlStep_isSome (o : Oracles) (en : EnabledClients) (e : BibEntry)
    (p : Option EnrichedMetadata × ApiFailureCounts)
    (h : optTruthy e.url = true) :
    (entryUrlStep o en e p).1.isSome = true := by
  unfold entryUrlStep
  rcases hp : p.1 with _ | m
  · simp only [hp]
    rw [if_pos h]
    exact enrich_by_url_isSome o en p.2 e h
  · simp only [hp]
    rfl

/-- C9: whenever the entry has a non-empty URL, `enrich_entry` returns a
result (never null), because `_enrich_by_url` returns a result
unconditionally: either the URL-extracted-title search result, or the
synthesized minimal metadata built from the cleaned URL with
`source = "url"`. -/
theorem c9_url_fallback (o : Oracles) (en : EnabledClients)
    (c : ApiFailureCounts) (e : BibEntry) (h : optTruthy e.url = true) :
    (enrich_entry o en c e).1.isSome = true ∧
    (enrich_by_url o en c e).1.isSome = true ∧
    (∀ u, e.url = some u →
      (enrich_by_url o en c e).1 = some (urlFallbackMetadata (clean_url u)) ∨
      (enrich_by_url o en c e).1 =
        (if o.extractTitle (clean_url u) ≠ "" ∧
            (o.extractTitle (clean_url u)).length ≥ 10 then
          enrich_by_title o en c (o.extractTitle (clean_url u)) (entryAuthor e)
            e.year
        else (none, c)).1) := by
  refine ⟨?_, enrich_by_url_isSome o en c e h, ?_⟩
  · unfold enrich_entry
    rcases h1 : (if strLower e.entry_type = "techreport" then enrich_report e
        else none) with _ | m1
    · simp only [h1]
      rcases h2 : (if is_arxiv_paper e ∧ en.arxiv then
          o.arxivTitle e.title (entryAuthor e) else none) with _ | m2
      · simp only [h2]
        exact entryUrlStep_isSome o en e _ h
      · simp only [h2]
        rfl
    · simp only [h1]
      rfl
  · intro u hu
    have hne : u ≠ "" := by
      rw [hu] at h
      simpa [optTruthy] using h
    rcases h2 : (if o.extractTitle (clean_url u) ≠ "" ∧
        (o.extractTitle (clean_url u)).length ≥ 10 then
      enrich_by_title o en c (o.extractTitle (clean_url u)) (entryAuthor e)
        e.year
    else (none, c)).1 with _ | m
    · left
      simp [enrich_by_url, hu, hne, h2]
    · right
      simp [enrich_by_url, hu, hne, h2]

/-- Witness for C9: an entry carrying only a URL is enriched to a result by
a fully failing oracle. -/
theorem c9_url_fallback_witness :
    optTruthy c9Entry.url = true ∧
    (enrich_entry c2Oracle allClients zeroCounts c9Entry).1.isSome = true :=
  ⟨by decide,
   (c9_url_fallback c2Oracle allClients zeroCounts c9Entry (by decide)).1⟩

end Toread
